import Mathlib

/-!
Formal model of `ReportEngine/ir/validator.py` (class `IRValidator`), the
structural validator for chapter-level report IR.  Python values are embedded
as `JValue`; each `_validate_*` method of the class becomes a Lean function
returning the list of diagnostic strings it appends, in emission order.
The schema module the validator imports (`ReportEngine/ir/schema.py`) is not
among the given sources, so its constants are modelled from the spec: the
closed block-kind vocabulary is fixed by spec section 3, while the allowed
inline marks and the engine-to-title map stay parameters (`SchemaRegistry`).
-/

set_option maxHeartbeats 4000000

namespace ReportIR

/-- Embedding of the Python/JSON values the validator consumes.  Booleans are
a separate constructor but count as integers for `isinstance(v, int)`,
mirroring that Python `bool` is a subclass of `int`. -/
inductive JValue where
  | null
  | bool (b : Bool)
  | int (n : Int)
  | str (s : String)
  | arr (elems : List JValue)
  | obj (entries : List (String × JValue))

/-- Python truthiness, as used by `or` defaults and `if engine`. -/
def pyTruthy : JValue → Bool
  | .null => false
  | .bool b => b
  | .int n => n != 0
  | .str s => s != ""
  | .arr l => !l.isEmpty
  | .obj es => !es.isEmpty

/-- View of a value as a Python dict: `isinstance(v, dict)`. -/
def asObj : JValue → Option (List (String × JValue))
  | .obj es => some es
  | _ => none

/-- View of a value as a Python list: `isinstance(v, list)`. -/
def asArr : JValue → Option (List JValue)
  | .arr l => some l
  | _ => none

/-- View of a value as a Python string: `isinstance(v, str)`. -/
def asStr : JValue → Option String
  | .str s => some s
  | _ => none

/-- Model of `d.get(k)`: the stored value, `None` when the key is absent. -/
def pyGet (es : List (String × JValue)) (k : String) : JValue :=
  (es.lookup k).getD .null

/-- Model of `isinstance(v, int)`; true for Python booleans as well. -/
def isPyInt : JValue → Bool
  | .int _ => true
  | .bool _ => true
  | _ => false

mutual
/-- Python `repr`, used by f-string interpolation for non-string values.
Container layout follows CPython; escaping inside strings is not modelled
(the validator only interpolates scalars in practice). -/
def pyRepr : JValue → String
  | .null => "None"
  | .bool true => "True"
  | .bool false => "False"
  | .int n => toString n
  | .str s => "\x27" ++ s ++ "\x27"
  | .arr l => "[" ++ pyReprSeq l ++ "]"
  | .obj es => "\x7b" ++ pyReprEntries es ++ "\x7d"

/-- Comma-separated reprs of the elements of a list. -/
def pyReprSeq : List JValue → String
  | [] => ""
  | [v] => pyRepr v
  | v :: w :: rest => pyRepr v ++ ", " ++ pyReprSeq (w :: rest)

/-- Comma-separated reprs of the entries of a dict. -/
def pyReprEntries : List (String × JValue) → String
  | [] => ""
  | [(k, v)] => "\x27" ++ k ++ "\x27: " ++ pyRepr v
  | (k, v) :: e :: rest =>
    "\x27" ++ k ++ "\x27: " ++ pyRepr v ++ ", " ++ pyReprEntries (e :: rest)
end

/-- Model of Python `str(v)`, as performed by f-string interpolation. -/
def pyStr : JValue → String
  | .str s => s
  | v => pyRepr v

/-- Model of `str.lower()` on the character data (the engine tags involved
are ASCII, where `Char.toLower` agrees with Python). -/
def pyLower (s : String) : String :=
  ⟨s.data.map Char.toLower⟩

/-- Modelled from the spec: `ALLOWED_BLOCK_TYPES` lives in the schema module
`ReportEngine/ir/schema.py`, which is not among the given sources; spec
section 3 fixes the closed block-kind vocabulary to exactly these twelve
tags, one per checker method of the validator. -/
def ALLOWED_BLOCK_TYPES : List String :=
  ["heading", "paragraph", "list", "table", "blockquote", "engineQuote",
   "callout", "kpiGrid", "widget", "code", "math", "figure"]

/-- Modelled from the spec: `ALLOWED_INLINE_MARKS` and `ENGINE_AGENT_TITLES`
also live in the missing schema module.  The spec fixes only that the former
is a closed set of mark tags (bold and italic among others) and that the
latter maps the three engine identifiers to their canonical display titles,
so both stay parameters of the development. -/
structure SchemaRegistry where
  ALLOWED_INLINE_MARKS : List String
  ENGINE_AGENT_TITLES : List (String × String)

/-- Model of the marks loop of `IRValidator._validate_inline_run`. -/
def inline_mark_errs (reg : SchemaRegistry) (marks : List JValue) (m_idx : Nat)
    (path : String) : List String :=
  match marks with
  | [] => []
  | mark :: rest =>
    (match mark with
     | .obj mes =>
       let m_type := pyGet mes ("type")
       let ok : Bool := match m_type with
         | .str s => reg.ALLOWED_INLINE_MARKS.contains s
         | _ => false
       if ok then []
       else [path ++ ".marks[" ++ toString m_idx ++ "].type 不被支持: " ++ pyStr m_type]
     | _ => [path ++ ".marks[" ++ toString m_idx ++ "] 必须是对象"])
    ++ inline_mark_errs reg rest (m_idx + 1) path

/-- Model of `IRValidator._validate_inline_run`. -/
def validate_inline_run (reg : SchemaRegistry) (run : JValue) (path : String) :
    List String :=
  match run with
  | .obj es =>
    let text_errs := if (es.lookup ("text")).isSome then [] else [path ++ ".text 缺失"]
    match es.lookup ("marks") with
    | none => text_errs
    | some .null => text_errs
    | some (.arr marks) => text_errs ++ inline_mark_errs reg marks 0 path
    | some _ => text_errs ++ [path ++ ".marks 必须是数组"]
  | _ => [path ++ " 必须是对象"]

/-- Model of `IRValidator._validate_heading_block`. -/
def validate_heading_block (block : List (String × JValue)) (path : String) :
    List String :=
  (if (match block.lookup ("level") with
       | some v => isPyInt v
       | none => false) then [] else [path ++ ".level 必须是整数"])
  ++ (if (block.lookup ("text")).isSome then [] else [path ++ ".text 缺失"])
  ++ (if (block.lookup ("anchor")).isSome then [] else [path ++ ".anchor 缺失"])

/-- Model of the inlines loop of `IRValidator._validate_paragraph_block`. -/
def validate_inline_runs (reg : SchemaRegistry) (runs : List JValue) (idx : Nat)
    (pre : String) : List String :=
  match runs with
  | [] => []
  | run :: rest =>
    validate_inline_run reg run (pre ++ "[" ++ toString idx ++ "]")
    ++ validate_inline_runs reg rest (idx + 1) pre

/-- Model of `IRValidator._validate_paragraph_block`. -/
def validate_paragraph_block (reg : SchemaRegistry)
    (block : List (String × JValue)) (path : String) : List String :=
  match asArr (pyGet block ("inlines")) with
  | some runs =>
    if runs.isEmpty then [path ++ ".inlines 必须是非空数组"]
    else validate_inline_runs reg runs 0 (path ++ ".inlines")
  | none => [path ++ ".inlines 必须是非空数组"]

/-- Model of the items loop of `IRValidator._validate_kpiGrid_block`. -/
def kpi_item_errs (items : List JValue) (idx : Nat) (path : String) :
    List String :=
  match items with
  | [] => []
  | item :: rest =>
    (match item with
     | .obj ies =>
       if (ies.lookup ("label")).isSome && (ies.lookup ("value")).isSome then []
       else [path ++ ".items[" ++ toString idx ++ "] 需要label与value"]
     | _ => [path ++ ".items[" ++ toString idx ++ "] 必须是对象"])
    ++ kpi_item_errs rest (idx + 1) path

/-- Model of `IRValidator._validate_kpiGrid_block`. -/
def validate_kpiGrid_block (block : List (String × JValue)) (path : String) :
    List String :=
  match asArr (pyGet block ("items")) with
  | some items =>
    if items.isEmpty then [path ++ ".items 必须是非空数组"]
    else kpi_item_errs items 0 path
  | none => [path ++ ".items 必须是非空数组"]

/-- Model of `IRValidator._validate_widget_block`. -/
def validate_widget_block (block : List (String × JValue)) (path : String) :
    List String :=
  (if (block.lookup ("widgetId")).isSome then [] else [path ++ ".widgetId 缺失"])
  ++ (if (block.lookup ("widgetType")).isSome then [] else [path ++ ".widgetType 缺失"])
  ++ (if (block.lookup ("data")).isSome || (block.lookup ("dataRef")).isSome then []
      else [path ++ " 需要 data 或 dataRef 其一"])

/-- Model of `IRValidator._validate_code_block`. -/
def validate_code_block (block : List (String × JValue)) (path : String) :
    List String :=
  if (block.lookup ("content")).isSome then [] else [path ++ ".content 缺失"]

/-- Model of `IRValidator._validate_math_block`. -/
def validate_math_block (block : List (String × JValue)) (path : String) :
    List String :=
  if (block.lookup ("latex")).isSome then [] else [path ++ ".latex 缺失"]

/-- Model of `IRValidator._validate_figure_block`. -/
def validate_figure_block (block : List (String × JValue)) (path : String) :
    List String :=
  match asObj (pyGet block ("img")) with
  | some img =>
    if (img.lookup ("src")).isSome then [] else [path ++ ".img.src 缺失"]
  | none => [path ++ ".img 必须是对象"]

/-- Model of the local `engine` variable of
`IRValidator._validate_engineQuote_block`: the lowercased engine tag, `None`
when the raw value is not a string. -/
def engineQuote_engine (block : List (String × JValue)) : Option String :=
  match pyGet block ("engine") with
  | .str s => some (pyLower s)
  | _ => none

/-- Model of the engine and title checks of
`IRValidator._validate_engineQuote_block` (the first two appends of the
method, before the nested blocks are examined). -/
def engineQuote_engine_title_errs (reg : SchemaRegistry)
    (block : List (String × JValue)) (path : String) : List String :=
  let engine_raw := pyGet block ("engine")
  let engine := engineQuote_engine block
  let engine_errs :=
    if engine = some ("insight") ∨ engine = some ("media") ∨ engine = some ("query")
    then [] else [path ++ ".engine 取值非法: " ++ pyStr engine_raw]
  let expected_title : Option String :=
    match engine with
    | some e => if e = "" then none else reg.ENGINE_AGENT_TITLES.lookup e
    | none => none
  let title := pyGet block ("title")
  let title_errs :=
    match title with
    | .null => [path ++ ".title 缺失"]
    | .str t =>
      (match expected_title with
       | some et =>
         if et ≠ "" ∧ t ≠ et
         then [path ++ ".title 必须与engine一致，使用对应Agent名称: " ++ et] else []
       | none => [])
    | _ => [path ++ ".title 必须是字符串"]
  engine_errs ++ title_errs

/-- Model of `mark.get("type") if isinstance(mark, dict) else None` in the
restricted marks loop of `IRValidator._validate_engineQuote_block`. -/
def eq_mark_type (mark : JValue) : JValue :=
  match mark with
  | .obj mes => pyGet mes ("type")
  | _ => .null

/-- Model of `mark_type not in {"bold", "italic"}` (negated) in the
restricted marks loop of `IRValidator._validate_engineQuote_block`. -/
def eq_mark_ok (mark : JValue) : Bool :=
  match eq_mark_type mark with
  | .str s => s = "bold" || s = "italic"
  | _ => false

/-- Model of the restricted marks loop nested in
`IRValidator._validate_engineQuote_block` (only bold/italic allowed). -/
def eq_mark_errs (marks : List JValue) (midx : Nat) (run_path : String) :
    List String :=
  match marks with
  | [] => []
  | mark :: rest =>
    (if eq_mark_ok mark then []
     else [run_path ++ ".marks[" ++ toString midx ++ "].type 仅允许 bold/italic"])
    ++ eq_mark_errs rest (midx + 1) run_path

/-- Model of the marks handling layered on one inline run inside an
engineQuote paragraph: `marks = run.get("marks") or []` followed by the
list-shape check and the restricted marks loop.  Runs that are not dicts
contribute nothing here (the loop does `continue`). -/
def eq_run_extra_errs (run : JValue) (run_path : String) : List String :=
  match run with
  | .obj res =>
    (match (if pyTruthy (pyGet res ("marks")) then pyGet res ("marks") else JValue.arr []) with
     | .arr ms => eq_mark_errs ms 0 run_path
     | _ => [run_path ++ ".marks 必须是数组"])
  | _ => []

/-- Model of the inlines loop nested in
`IRValidator._validate_engineQuote_block`: the shared inline-run check runs
first, then the restricted marks handling is layered on top. -/
def eq_run_errs (reg : SchemaRegistry) (runs : List JValue) (ridx : Nat)
    (sub_path : String) : List String :=
  match runs with
  | [] => []
  | run :: rest =>
    (validate_inline_run reg run (sub_path ++ ".inlines[" ++ toString ridx ++ "]")
      ++ eq_run_extra_errs run (sub_path ++ ".inlines[" ++ toString ridx ++ "]"))
    ++ eq_run_errs reg rest (ridx + 1) sub_path

/-- Model of the checks applied to one nested sub-block of an engineQuote
block: must be a dict of type paragraph with non-empty inlines. -/
def eq_sub_block_one (reg : SchemaRegistry) (sub : JValue) (sub_path : String) :
    List String :=
  match sub with
  | .obj ses =>
    (match asStr (pyGet ses ("type")) with
     | some s =>
       if s = "paragraph" then
         (match asArr (pyGet ses ("inlines")) with
          | some runs =>
            if runs.isEmpty then [sub_path ++ ".inlines 必须是非空数组"]
            else eq_run_errs reg runs 0 sub_path
          | none => [sub_path ++ ".inlines 必须是非空数组"])
       else [sub_path ++ ".type 仅允许 paragraph"]
     | none => [sub_path ++ ".type 仅允许 paragraph"])
  | _ => [sub_path ++ " 必须是对象"]

/-- Model of the nested blocks loop of
`IRValidator._validate_engineQuote_block`. -/
def eq_sub_block_errs (reg : SchemaRegistry) (bs : List JValue) (idx : Nat)
    (path : String) : List String :=
  match bs with
  | [] => []
  | sub :: rest =>
    eq_sub_block_one reg sub (path ++ ".blocks[" ++ toString idx ++ "]")
    ++ eq_sub_block_errs reg rest (idx + 1) path

/-- Model of `IRValidator._validate_engineQuote_block`. -/
def validate_engineQuote_block (reg : SchemaRegistry)
    (block : List (String × JValue)) (path : String) : List String :=
  engineQuote_engine_title_errs reg block path ++
  (match asArr (pyGet block ("blocks")) with
   | some inner =>
     if inner.isEmpty then [path ++ ".blocks 必须是非空数组"]
     else eq_sub_block_errs reg inner 0 path
   | none => [path ++ ".blocks 必须是非空数组"])

/-- Values looked up in an association list are structurally smaller. -/
theorem sizeOf_lookup {es : List (String × JValue)} {k : String} {v : JValue}
    (h : es.lookup k = some v) : sizeOf v < sizeOf es := by
  induction es with
  | nil => simp [List.lookup] at h
  | cons e rest ih =>
    obtain ⟨a, b⟩ := e
    rw [List.lookup] at h
    by_cases hk : (k == a) = true
    · rw [hk] at h
      simp only [Option.some.injEq] at h
      subst h
      simp
      omega
    · rw [Bool.not_eq_true] at hk
      rw [hk] at h
      have := ih h
      simp
      omega

/-- A value viewed as a list is structurally larger than its element list. -/
theorem sizeOf_asArr {v : JValue} {l : List JValue} (h : asArr v = some l) :
    sizeOf l < sizeOf v := by
  cases v with
  | arr l2 => simp only [asArr, Option.some.injEq] at h; subst h; simp
  | null => simp [asArr] at h
  | bool b => simp [asArr] at h
  | int n => simp [asArr] at h
  | str s => simp [asArr] at h
  | obj es2 => simp [asArr] at h

/-- A value viewed as a dict is structurally larger than its entry list. -/
theorem sizeOf_asObj {v : JValue} {es : List (String × JValue)}
    (h : asObj v = some es) : sizeOf es < sizeOf v := by
  cases v with
  | obj es2 => simp only [asObj, Option.some.injEq] at h; subst h; simp
  | null => simp [asObj] at h
  | bool b => simp [asObj] at h
  | int n => simp [asObj] at h
  | str s => simp [asObj] at h
  | arr l2 => simp [asObj] at h

/-- A list extracted from a field of a dict is structurally smaller than the
entry list of the dict. -/
theorem sizeOf_pyGet_asArr {es : List (String × JValue)} {k : String}
    {l : List JValue} (h : asArr (pyGet es k) = some l) : sizeOf l < sizeOf es := by
  unfold pyGet at h
  cases hlk : es.lookup k with
  | none => rw [hlk] at h; simp [asArr] at h
  | some v =>
    rw [hlk] at h
    simp only [Option.getD_some] at h
    cases v with
    | arr l2 =>
      simp only [asArr, Option.some.injEq] at h
      subst h
      have := sizeOf_lookup hlk
      simp at this
      omega
    | null => simp [asArr] at h
    | bool b => simp [asArr] at h
    | int n => simp [asArr] at h
    | str s => simp [asArr] at h
    | obj es2 => simp [asArr] at h

mutual
/-- Model of `IRValidator._validate_block`: membership of the type tag in the
closed vocabulary, then dispatch to the per-kind checker (an allowed tag
without a checker would be skipped silently, matching `if validator:`). -/
def validate_block (reg : SchemaRegistry) (block : JValue) (path : String) :
    List String :=
  match ho : asObj block with
  | none => [path ++ " 必须是对象"]
  | some es =>
    let block_type := pyGet es ("type")
    match asStr block_type with
    | none => [path ++ ".type 不被支持: " ++ pyStr block_type]
    | some s =>
      if ALLOWED_BLOCK_TYPES.contains s then
        if s = "heading" then validate_heading_block es path
        else if s = "paragraph" then validate_paragraph_block reg es path
        else if s = "list" then validate_list_block reg es path
        else if s = "table" then validate_table_block reg es path
        else if s = "blockquote" then validate_blockquote_block reg es path
        else if s = "engineQuote" then validate_engineQuote_block reg es path
        else if s = "callout" then validate_callout_block reg es path
        else if s = "kpiGrid" then validate_kpiGrid_block es path
        else if s = "widget" then validate_widget_block es path
        else if s = "code" then validate_code_block es path
        else if s = "math" then validate_math_block es path
        else if s = "figure" then validate_figure_block es path
        else []
      else [path ++ ".type 不被支持: " ++ pyStr block_type]
termination_by sizeOf block
decreasing_by
  all_goals simp_wf
  all_goals (have h2 := sizeOf_asObj ho; omega)

/-- Model of `IRValidator._validate_list_block`. -/
def validate_list_block (reg : SchemaRegistry) (block : List (String × JValue))
    (path : String) : List String :=
  (let lt := pyGet block ("listType")
   let ok : Bool := match lt with
     | .str s => s = "ordered" || s = "bullet" || s = "task"
     | _ => false
   if ok then [] else [path ++ ".listType 取值非法"])
  ++ (match h : asArr (pyGet block ("items")) with
      | some items =>
        if items.isEmpty then [path ++ ".items 必须是非空列表"]
        else validate_list_items reg items 0 path
      | none => [path ++ ".items 必须是非空列表"])
termination_by sizeOf block
decreasing_by
  all_goals simp_wf
  all_goals try omega
  all_goals (have h2 := sizeOf_pyGet_asArr h; omega)

/-- Model of the items loop of `IRValidator._validate_list_block`: each item
must itself be a list of blocks, validated recursively. -/
def validate_list_items (reg : SchemaRegistry) (items : List JValue) (i : Nat)
    (path : String) : List String :=
  match items with
  | [] => []
  | item :: rest =>
    (match hi : asArr item with
     | some subs =>
       validate_block_seq reg subs 0 (path ++ ".items[" ++ toString i ++ "]")
     | none => [path ++ ".items[" ++ toString i ++ "] 必须是区块数组"])
    ++ validate_list_items reg rest (i + 1) path
termination_by sizeOf items
decreasing_by
  all_goals simp_wf
  all_goals try omega
  all_goals (have h2 := sizeOf_asArr hi; omega)

/-- Model of `IRValidator._validate_table_block`. -/
def validate_table_block (reg : SchemaRegistry) (block : List (String × JValue))
    (path : String) : List String :=
  match h : asArr (pyGet block ("rows")) with
  | some rows =>
    if rows.isEmpty then [path ++ ".rows 必须是非空数组"]
    else validate_table_rows reg rows 0 path
  | none => [path ++ ".rows 必须是非空数组"]
termination_by sizeOf block
decreasing_by
  all_goals simp_wf
  all_goals try omega
  all_goals (have h2 := sizeOf_pyGet_asArr h; omega)

/-- Model of the rows loop of `IRValidator._validate_table_block`: a row that
is not a dict, or whose cells field is not a non-empty list, is reported and
skipped. -/
def validate_table_rows (reg : SchemaRegistry) (rows : List JValue) (r_idx : Nat)
    (path : String) : List String :=
  match rows with
  | [] => []
  | row :: rest =>
    (match hr : asObj row with
     | some res =>
       (match hc : asArr (pyGet res ("cells")) with
        | some cells =>
          if cells.isEmpty then
            [path ++ ".rows[" ++ toString r_idx ++ "].cells 必须是非空数组"]
          else
            validate_table_cells reg cells 0
              (path ++ ".rows[" ++ toString r_idx ++ "].cells")
        | none => [path ++ ".rows[" ++ toString r_idx ++ "].cells 必须是非空数组"])
     | none => [path ++ ".rows[" ++ toString r_idx ++ "].cells 必须是非空数组"])
    ++ validate_table_rows reg rest (r_idx + 1) path
termination_by sizeOf rows
decreasing_by
  all_goals simp_wf
  all_goals try omega
  all_goals (have h2 := sizeOf_asObj hr; have h3 := sizeOf_pyGet_asArr hc; omega)

/-- Model of the cells loop of `IRValidator._validate_table_block`: each cell
must be a dict whose blocks field is a non-empty list, validated recursively. -/
def validate_table_cells (reg : SchemaRegistry) (cells : List JValue)
    (c_idx : Nat) (cells_path : String) : List String :=
  match cells with
  | [] => []
  | cell :: rest =>
    (match hl : asObj cell with
     | some ces =>
       (match hb : asArr (pyGet ces ("blocks")) with
        | some bs =>
          if bs.isEmpty then
            [cells_path ++ "[" ++ toString c_idx ++ "].blocks 必须是非空数组"]
          else
            validate_block_seq reg bs 0
              (cells_path ++ "[" ++ toString c_idx ++ "].blocks")
        | none => [cells_path ++ "[" ++ toString c_idx ++ "].blocks 必须是非空数组"])
     | none => [cells_path ++ "[" ++ toString c_idx ++ "] 必须是对象"])
    ++ validate_table_cells reg rest (c_idx + 1) cells_path
termination_by sizeOf cells
decreasing_by
  all_goals simp_wf
  all_goals try omega
  all_goals (have h2 := sizeOf_asObj hl; have h3 := sizeOf_pyGet_asArr hb; omega)

/-- Model of `IRValidator._validate_blockquote_block`. -/
def validate_blockquote_block (reg : SchemaRegistry)
    (block : List (String × JValue)) (path : String) : List String :=
  match h : asArr (pyGet block ("blocks")) with
  | some inner =>
    if inner.isEmpty then [path ++ ".blocks 必须是非空数组"]
    else validate_block_seq reg inner 0 (path ++ ".blocks")
  | none => [path ++ ".blocks 必须是非空数组"]
termination_by sizeOf block
decreasing_by
  all_goals simp_wf
  all_goals try omega
  all_goals (have h2 := sizeOf_pyGet_asArr h; omega)

/-- Model of `IRValidator._validate_callout_block`. -/
def validate_callout_block (reg : SchemaRegistry)
    (block : List (String × JValue)) (path : String) : List String :=
  (let tone := pyGet block ("tone")
   let ok : Bool := match tone with
     | .str s => s = "info" || s = "warning" || s = "success" || s = "danger"
     | _ => false
   if ok then [] else [path ++ ".tone 取值非法: " ++ pyStr tone])
  ++ (match h : asArr (pyGet block ("blocks")) with
      | some bs =>
        if bs.isEmpty then [path ++ ".blocks 必须是非空数组"]
        else validate_block_seq reg bs 0 (path ++ ".blocks")
      | none => [path ++ ".blocks 必须是非空数组"])
termination_by sizeOf block
decreasing_by
  all_goals simp_wf
  all_goals try omega
  all_goals (have h2 := sizeOf_pyGet_asArr h; omega)

/-- Model of an enumerated `for idx, block in enumerate(...)` loop calling
`IRValidator._validate_block` with paths of the form `pre[idx]`. -/
def validate_block_seq (reg : SchemaRegistry) (bs : List JValue) (idx : Nat)
    (pre : String) : List String :=
  match bs with
  | [] => []
  | b :: rest =>
    validate_block reg b (pre ++ "[" ++ toString idx ++ "]")
    ++ validate_block_seq reg rest (idx + 1) pre
termination_by sizeOf bs
decreasing_by
  all_goals simp_wf
  all_goals omega
end

/-- Required top-level chapter fields, in the order the source checks them. -/
def CHAPTER_REQUIRED_FIELDS : List String :=
  ["chapterId", "title", "anchor", "order", "blocks"]

/-- Model of `IRValidator.validate_chapter`: the public entry point. -/
def validate_chapter (reg : SchemaRegistry) (chapter : JValue) :
    Bool × List String :=
  match asObj chapter with
  | none => (false, ["chapter必须是对象"])
  | some es =>
    let missing :=
      (CHAPTER_REQUIRED_FIELDS.filter (fun f => (es.lookup f).isNone)).map
        (fun f => "missing chapter." ++ f)
    match asArr (pyGet es ("blocks")) with
    | some bs =>
      if bs.isEmpty then (false, missing ++ ["chapter.blocks必须是非空数组"])
      else
        let errors := missing ++ validate_block_seq reg bs 0 "blocks"
        (errors.isEmpty, errors)
    | none => (false, missing ++ ["chapter.blocks必须是非空数组"])

/-- Arbitrary concrete registry instance, used only to instantiate the
parametric theorems on concrete inputs (the real schema module is not among
the sources, so any instance satisfying the spec shape serves as a witness
environment). -/
def sampleRegistry : SchemaRegistry :=
  { ALLOWED_INLINE_MARKS := ["bold", "italic", "underline", "link", "code"],
    ENGINE_AGENT_TITLES :=
      [("insight", "InsightAgent"), ("media", "MediaAgent"), ("query", "QueryAgent")] }

/-! ## Diagnostic path discipline

Every diagnostic string emitted while validating a node is the path of that
node followed by more text.  `PathDiag p e` states that `e` extends `p`. -/

/-- The diagnostic `e` starts with the path `p`. -/
def PathDiag (p e : String) : Prop := ∃ t, e = p ++ t

/-- A string trivially extends its own first summand. -/
theorem PathDiag.here (p t : String) : PathDiag p (p ++ t) := ⟨t, rfl⟩

/-- Extending a longer path extends the shorter one. -/
theorem PathDiag.step {p a e : String} (h : PathDiag (p ++ a) e) : PathDiag p e := by
  obtain ⟨t, ht⟩ := h
  exact ⟨a ++ t, by rw [ht, String.append_assoc]⟩

/-- Left-associated two-segment extension. -/
theorem PathDiag.here2 (p a b : String) : PathDiag p (p ++ a ++ b) :=
  PathDiag.step (PathDiag.here (p ++ a) b)

/-- Left-associated three-segment extension. -/
theorem PathDiag.here3 (p a b c : String) : PathDiag p (p ++ a ++ b ++ c) :=
  PathDiag.step (PathDiag.step (PathDiag.here (p ++ a ++ b) c))

/-- Left-associated four-segment extension. -/
theorem PathDiag.here4 (p a b c d : String) : PathDiag p (p ++ a ++ b ++ c ++ d) :=
  PathDiag.step (PathDiag.step (PathDiag.step (PathDiag.here (p ++ a ++ b ++ c) d)))

/-! ## Unfolding and membership lemmas for the recursive walkers -/

theorem validate_block_seq_nil (reg : SchemaRegistry) (idx : Nat) (pre : String) :
    validate_block_seq reg [] idx pre = [] := by
  simp [validate_block_seq]

theorem validate_block_seq_cons (reg : SchemaRegistry) (b : JValue)
    (rest : List JValue) (idx : Nat) (pre : String) :
    validate_block_seq reg (b :: rest) idx pre =
      validate_block reg b (pre ++ "[" ++ toString idx ++ "]")
      ++ validate_block_seq reg rest (idx + 1) pre := by
  rw [validate_block_seq]

/-- Diagnostics of the j-th element of a block sequence appear in the output
of the sequence walker. -/
theorem validate_block_seq_mem {reg : SchemaRegistry} {pre : String} :
    ∀ {bs : List JValue} {j idx : Nat} {b : JValue}, bs.get? j = some b →
      ∀ {e : String}, e ∈ validate_block reg b (pre ++ "[" ++ toString (idx + j) ++ "]") →
        e ∈ validate_block_seq reg bs idx pre := by
  intro bs
  induction bs with
  | nil => intro j idx b hj; simp at hj
  | cons hd tl ih =>
    intro j idx b hj e he
    rw [validate_block_seq_cons]
    cases j with
    | zero =>
      simp only [List.get?] at hj
      obtain rfl : hd = b := by injection hj
      exact List.mem_append_left _ he
    | succ j2 =>
      simp only [List.get?] at hj
      have harith : idx + (j2 + 1) = (idx + 1) + j2 := by omega
      rw [harith] at he
      exact List.mem_append_right _ (ih hj he)

/-- A block sequence whose members all validate cleanly produces no
diagnostics. -/
theorem validate_block_seq_eq_nil {reg : SchemaRegistry} {pre : String} :
    ∀ {bs : List JValue} {idx : Nat},
      (∀ j b, bs.get? j = some b →
        validate_block reg b (pre ++ "[" ++ toString (idx + j) ++ "]") = []) →
      validate_block_seq reg bs idx pre = [] := by
  intro bs
  induction bs with
  | nil => intro idx hall; simp [validate_block_seq]
  | cons hd tl ih =>
    intro idx hall
    rw [validate_block_seq_cons]
    have h0 := hall 0 hd rfl
    rw [Nat.add_zero] at h0
    rw [h0]
    have htl : ∀ j b, tl.get? j = some b →
        validate_block reg b (pre ++ "[" ++ toString ((idx + 1) + j) ++ "]") = [] := by
      intro j b hj
      have := hall (j + 1) b (by simpa using hj)
      rwa [show idx + (j + 1) = (idx + 1) + j by omega] at this
    simp [ih htl]

/-- Membership in a conditional empty-or-singleton list forces the value. -/
theorem mem_ite_nil_singleton {α : Type} {c : Prop} [Decidable c] {x e : α}
    (h : e ∈ (if c then ([] : List α) else [x])) : e = x := by
  split at h <;> simp_all

/-- Membership in a conditional singleton-or-empty list forces the value. -/
theorem mem_ite_singleton_nil {α : Type} {c : Prop} [Decidable c] {x e : α}
    (h : e ∈ (if c then [x] else ([] : List α))) : e = x := by
  split at h <;> simp_all

/-! ## Path discipline of the non-recursive checkers -/

theorem inline_mark_errs_shape {reg : SchemaRegistry} :
    ∀ {marks : List JValue} {i : Nat} {p e : String},
      e ∈ inline_mark_errs reg marks i p → PathDiag p e := by
  intro marks
  induction marks with
  | nil => intro i p e he; simp [inline_mark_errs] at he
  | cons mark rest ih =>
    intro i p e he
    rcases mark with _ | b | n | s | l | mes
    all_goals simp only [inline_mark_errs] at he
    all_goals rcases List.mem_append.mp he with h | h
    all_goals try exact ih h
    all_goals
      first
      | (replace h := mem_ite_nil_singleton h
         subst h
         first
         | exact PathDiag.here _ _
         | exact PathDiag.here2 _ _ _
         | exact PathDiag.here3 _ _ _ _
         | exact PathDiag.here4 _ _ _ _ _)
      | (replace h := List.mem_singleton.mp h
         subst h
         first
         | exact PathDiag.here _ _
         | exact PathDiag.here2 _ _ _
         | exact PathDiag.here3 _ _ _ _
         | exact PathDiag.here4 _ _ _ _ _)

theorem validate_inline_run_shape {reg : SchemaRegistry} {run : JValue}
    {p e : String} (he : e ∈ validate_inline_run reg run p) : PathDiag p e := by
  rcases run with _ | b | n | s | l | es
  case obj =>
    rw [show validate_inline_run reg (JValue.obj es) p =
        (let text_errs := if (es.lookup ("text")).isSome then []
           else [p ++ ".text 缺失"]
         match es.lookup ("marks") with
         | none => text_errs
         | some .null => text_errs
         | some (.arr marks) => text_errs ++ inline_mark_errs reg marks 0 p
         | some _ => text_errs ++ [p ++ ".marks 必须是数组"]) from rfl] at he
    rcases hm : es.lookup ("marks") with _ | v
    · rw [hm] at he
      replace he := mem_ite_nil_singleton he
      subst he
      first
          | exact PathDiag.here _ _
          | exact PathDiag.here2 _ _ _
          | exact PathDiag.here3 _ _ _ _
          | exact PathDiag.here4 _ _ _ _ _
    · rw [hm] at he
      rcases v with _ | b | n | s | l | mes
      case null =>
        replace he := mem_ite_nil_singleton he
        subst he
        first
          | exact PathDiag.here _ _
          | exact PathDiag.here2 _ _ _
          | exact PathDiag.here3 _ _ _ _
          | exact PathDiag.here4 _ _ _ _ _
      case arr =>
        rcases List.mem_append.mp he with h | h
        · replace h := mem_ite_nil_singleton h
          subst h
          first
          | exact PathDiag.here _ _
          | exact PathDiag.here2 _ _ _
          | exact PathDiag.here3 _ _ _ _
          | exact PathDiag.here4 _ _ _ _ _
        · exact inline_mark_errs_shape h
      all_goals
        rcases List.mem_append.mp he with h | h
        · replace h := mem_ite_nil_singleton h
          subst h
          first
          | exact PathDiag.here _ _
          | exact PathDiag.here2 _ _ _
          | exact PathDiag.here3 _ _ _ _
          | exact PathDiag.here4 _ _ _ _ _
        · replace h := List.mem_singleton.mp h
          subst h
          first
          | exact PathDiag.here _ _
          | exact PathDiag.here2 _ _ _
          | exact PathDiag.here3 _ _ _ _
          | exact PathDiag.here4 _ _ _ _ _
  all_goals
    replace he := List.mem_singleton.mp he
    subst he
    first
          | exact PathDiag.here _ _
          | exact PathDiag.here2 _ _ _
          | exact PathDiag.here3 _ _ _ _
          | exact PathDiag.here4 _ _ _ _ _

theorem validate_inline_runs_shape {reg : SchemaRegistry} :
    ∀ {runs : List JValue} {idx : Nat} {pre e : String},
      e ∈ validate_inline_runs reg runs idx pre → PathDiag pre e := by
  intro runs
  induction runs with
  | nil => intro idx pre e he; simp [validate_inline_runs] at he
  | cons run rest ih =>
    intro idx pre e he
    rw [validate_inline_runs] at he
    rcases List.mem_append.mp he with h | h
    · exact PathDiag.step (PathDiag.step (PathDiag.step (validate_inline_run_shape h)))
    · exact ih h

theorem validate_heading_block_shape {block : List (String × JValue)}
    {p e : String} (he : e ∈ validate_heading_block block p) : PathDiag p e := by
  unfold validate_heading_block at he
  rcases List.mem_append.mp he with h | h
  · rcases List.mem_append.mp h with h2 | h2
    all_goals
      replace h2 := mem_ite_nil_singleton h2
      subst h2
      first
          | exact PathDiag.here _ _
          | exact PathDiag.here2 _ _ _
          | exact PathDiag.here3 _ _ _ _
          | exact PathDiag.here4 _ _ _ _ _
  · replace h := mem_ite_nil_singleton h
    subst h
    first
          | exact PathDiag.here _ _
          | exact PathDiag.here2 _ _ _
          | exact PathDiag.here3 _ _ _ _
          | exact PathDiag.here4 _ _ _ _ _

theorem validate_paragraph_block_shape {reg : SchemaRegistry}
    {block : List (String × JValue)} {p e : String}
    (he : e ∈ validate_paragraph_block reg block p) : PathDiag p e := by
  unfold validate_paragraph_block at he
  split at he
  · split at he
    · replace he := List.mem_singleton.mp he
      subst he
      first
          | exact PathDiag.here _ _
          | exact PathDiag.here2 _ _ _
          | exact PathDiag.here3 _ _ _ _
          | exact PathDiag.here4 _ _ _ _ _
    · exact PathDiag.step (validate_inline_runs_shape he)
  · replace he := List.mem_singleton.mp he
    subst he
    first
          | exact PathDiag.here _ _
          | exact PathDiag.here2 _ _ _
          | exact PathDiag.here3 _ _ _ _
          | exact PathDiag.here4 _ _ _ _ _

theorem kpi_item_errs_shape :
    ∀ {items : List JValue} {idx : Nat} {p e : String},
      e ∈ kpi_item_errs items idx p → PathDiag p e := by
  intro items
  induction items with
  | nil => intro idx p e he; simp [kpi_item_errs] at he
  | cons item rest ih =>
    intro idx p e he
    rcases item with _ | b | n | s | l | ies
    all_goals simp only [kpi_item_errs] at he
    all_goals rcases List.mem_append.mp he with h | h
    all_goals try exact ih h
    all_goals
      first
      | (replace h := mem_ite_nil_singleton h
         subst h
         first
         | exact PathDiag.here _ _
         | exact PathDiag.here2 _ _ _
         | exact PathDiag.here3 _ _ _ _
         | exact PathDiag.here4 _ _ _ _ _)
      | (replace h := List.mem_singleton.mp h
         subst h
         first
         | exact PathDiag.here _ _
         | exact PathDiag.here2 _ _ _
         | exact PathDiag.here3 _ _ _ _
         | exact PathDiag.here4 _ _ _ _ _)

theorem validate_kpiGrid_block_shape {block : List (String × JValue)}
    {p e : String} (he : e ∈ validate_kpiGrid_block block p) : PathDiag p e := by
  unfold validate_kpiGrid_block at he
  split at he
  · split at he
    · replace he := List.mem_singleton.mp he
      subst he
      first
          | exact PathDiag.here _ _
          | exact PathDiag.here2 _ _ _
          | exact PathDiag.here3 _ _ _ _
          | exact PathDiag.here4 _ _ _ _ _
    · exact kpi_item_errs_shape he
  · replace he := List.mem_singleton.mp he
    subst he
    first
          | exact PathDiag.here _ _
          | exact PathDiag.here2 _ _ _
          | exact PathDiag.here3 _ _ _ _
          | exact PathDiag.here4 _ _ _ _ _

theorem validate_widget_block_shape {block : List (String × JValue)}
    {p e : String} (he : e ∈ validate_widget_block block p) : PathDiag p e := by
  unfold validate_widget_block at he
  rcases List.mem_append.mp he with h | h
  · rcases List.mem_append.mp h with h2 | h2
    all_goals
      replace h2 := mem_ite_nil_singleton h2
      subst h2
      first
          | exact PathDiag.here _ _
          | exact PathDiag.here2 _ _ _
          | exact PathDiag.here3 _ _ _ _
          | exact PathDiag.here4 _ _ _ _ _
  · replace h := mem_ite_nil_singleton h
    subst h
    first
          | exact PathDiag.here _ _
          | exact PathDiag.here2 _ _ _
          | exact PathDiag.here3 _ _ _ _
          | exact PathDiag.here4 _ _ _ _ _

theorem validate_code_block_shape {block : List (String × JValue)}
    {p e : String} (he : e ∈ validate_code_block block p) : PathDiag p e := by
  unfold validate_code_block at he
  replace he := mem_ite_nil_singleton he
  subst he
  first
          | exact PathDiag.here _ _
          | exact PathDiag.here2 _ _ _
          | exact PathDiag.here3 _ _ _ _
          | exact PathDiag.here4 _ _ _ _ _

theorem validate_math_block_shape {block : List (String × JValue)}
    {p e : String} (he : e ∈ validate_math_block block p) : PathDiag p e := by
  unfold validate_math_block at he
  replace he := mem_ite_nil_singleton he
  subst he
  first
          | exact PathDiag.here _ _
          | exact PathDiag.here2 _ _ _
          | exact PathDiag.here3 _ _ _ _
          | exact PathDiag.here4 _ _ _ _ _

theorem validate_figure_block_shape {block : List (String × JValue)}
    {p e : String} (he : e ∈ validate_figure_block block p) : PathDiag p e := by
  unfold validate_figure_block at he
  split at he
  · replace he := mem_ite_nil_singleton he
    subst he
    first
          | exact PathDiag.here _ _
          | exact PathDiag.here2 _ _ _
          | exact PathDiag.here3 _ _ _ _
          | exact PathDiag.here4 _ _ _ _ _
  · replace he := List.mem_singleton.mp he
    subst he
    first
          | exact PathDiag.here _ _
          | exact PathDiag.here2 _ _ _
          | exact PathDiag.here3 _ _ _ _
          | exact PathDiag.here4 _ _ _ _ _

theorem engineQuote_engine_title_errs_shape {reg : SchemaRegistry}
    {block : List (String × JValue)} {p e : String}
    (he : e ∈ engineQuote_engine_title_errs reg block p) : PathDiag p e := by
  unfold engineQuote_engine_title_errs at he
  rcases List.mem_append.mp he with h | h
  · replace h := mem_ite_nil_singleton h
    subst h
    first
          | exact PathDiag.here _ _
          | exact PathDiag.here2 _ _ _
          | exact PathDiag.here3 _ _ _ _
          | exact PathDiag.here4 _ _ _ _ _
  · split at h
    · replace h := List.mem_singleton.mp h
      subst h
      first
          | exact PathDiag.here _ _
          | exact PathDiag.here2 _ _ _
          | exact PathDiag.here3 _ _ _ _
          | exact PathDiag.here4 _ _ _ _ _
    · split at h
      · replace h := mem_ite_singleton_nil h
        subst h
        first
          | exact PathDiag.here _ _
          | exact PathDiag.here2 _ _ _
          | exact PathDiag.here3 _ _ _ _
          | exact PathDiag.here4 _ _ _ _ _
      · simp at h
    · replace h := List.mem_singleton.mp h
      subst h
      first
          | exact PathDiag.here _ _
          | exact PathDiag.here2 _ _ _
          | exact PathDiag.here3 _ _ _ _
          | exact PathDiag.here4 _ _ _ _ _

theorem eq_mark_errs_shape :
    ∀ {marks : List JValue} {midx : Nat} {rp e : String},
      e ∈ eq_mark_errs marks midx rp → PathDiag rp e := by
  intro marks
  induction marks with
  | nil => intro midx rp e he; simp [eq_mark_errs] at he
  | cons mark rest ih =>
    intro midx rp e he
    rw [eq_mark_errs] at he
    rcases List.mem_append.mp he with h | h
    · replace h := mem_ite_nil_singleton h
      subst h
      first
          | exact PathDiag.here _ _
          | exact PathDiag.here2 _ _ _
          | exact PathDiag.here3 _ _ _ _
          | exact PathDiag.here4 _ _ _ _ _
    · exact ih h

theorem eq_run_extra_errs_shape {run : JValue} {rp e : String}
    (he : e ∈ eq_run_extra_errs run rp) : PathDiag rp e := by
  unfold eq_run_extra_errs at he
  split at he
  · split at he
    · exact eq_mark_errs_shape he
    · replace he := List.mem_singleton.mp he
      subst he
      exact PathDiag.here _ _
  · simp at he

theorem eq_run_errs_shape {reg : SchemaRegistry} :
    ∀ {runs : List JValue} {ridx : Nat} {sp e : String},
      e ∈ eq_run_errs reg runs ridx sp → PathDiag sp e := by
  intro runs
  induction runs with
  | nil => intro ridx sp e he; simp [eq_run_errs] at he
  | cons run rest ih =>
    intro ridx sp e he
    rw [eq_run_errs] at he
    rcases List.mem_append.mp he with h | h
    · rcases List.mem_append.mp h with h2 | h2
      · exact PathDiag.step (PathDiag.step (PathDiag.step (validate_inline_run_shape h2)))
      · exact PathDiag.step (PathDiag.step (PathDiag.step (eq_run_extra_errs_shape h2)))
    · exact ih h

theorem eq_sub_block_one_shape {reg : SchemaRegistry} {sub : JValue}
    {sp e : String} (he : e ∈ eq_sub_block_one reg sub sp) : PathDiag sp e := by
  unfold eq_sub_block_one at he
  split at he
  · split at he
    · split at he
      · split at he
        · split at he
          · replace he := List.mem_singleton.mp he
            subst he
            exact PathDiag.here _ _
          · exact eq_run_errs_shape he
        · replace he := List.mem_singleton.mp he
          subst he
          exact PathDiag.here _ _
      · replace he := List.mem_singleton.mp he
        subst he
        exact PathDiag.here _ _
    · replace he := List.mem_singleton.mp he
      subst he
      exact PathDiag.here _ _
  · replace he := List.mem_singleton.mp he
    subst he
    exact PathDiag.here _ _

theorem eq_sub_block_errs_shape {reg : SchemaRegistry} :
    ∀ {bs : List JValue} {idx : Nat} {p e : String},
      e ∈ eq_sub_block_errs reg bs idx p → PathDiag p e := by
  intro bs
  induction bs with
  | nil => intro idx p e he; simp [eq_sub_block_errs] at he
  | cons sub rest ih =>
    intro idx p e he
    rw [eq_sub_block_errs] at he
    rcases List.mem_append.mp he with h | h
    · exact PathDiag.step (PathDiag.step (PathDiag.step (eq_sub_block_one_shape h)))
    · exact ih h

theorem validate_engineQuote_block_shape {reg : SchemaRegistry}
    {block : List (String × JValue)} {p e : String}
    (he : e ∈ validate_engineQuote_block reg block p) : PathDiag p e := by
  unfold validate_engineQuote_block at he
  rcases List.mem_append.mp he with h | h
  · exact engineQuote_engine_title_errs_shape h
  · split at h
    · split at h
      · replace h := List.mem_singleton.mp h
        subst h
        first
          | exact PathDiag.here _ _
          | exact PathDiag.here2 _ _ _
          | exact PathDiag.here3 _ _ _ _
          | exact PathDiag.here4 _ _ _ _ _
      · exact eq_sub_block_errs_shape h
    · replace h := List.mem_singleton.mp h
      subst h
      first
          | exact PathDiag.here _ _
          | exact PathDiag.here2 _ _ _
          | exact PathDiag.here3 _ _ _ _
          | exact PathDiag.here4 _ _ _ _ _

/-- A value with a dict view is the corresponding object. -/
theorem asObj_eq_some {v : JValue} {es : List (String × JValue)}
    (h : asObj v = some es) : v = JValue.obj es := by
  cases v <;> simp_all [asObj]

/-! ## Path discipline of the recursive walkers -/

/-- Every diagnostic emitted while validating a node extends the path of
that node, jointly for all the mutually recursive walkers. -/
theorem validate_shape_all (reg : SchemaRegistry) :
    (∀ (block : JValue) (path : String),
      ∀ e ∈ validate_block reg block path, PathDiag path e) ∧
    (∀ (block : List (String × JValue)) (path : String),
      ∀ e ∈ validate_callout_block reg block path, PathDiag path e) ∧
    (∀ (bs : List JValue) (idx : Nat) (pre : String),
      ∀ e ∈ validate_block_seq reg bs idx pre, PathDiag pre e) ∧
    (∀ (block : List (String × JValue)) (path : String),
      ∀ e ∈ validate_blockquote_block reg block path, PathDiag path e) ∧
    (∀ (block : List (String × JValue)) (path : String),
      ∀ e ∈ validate_table_block reg block path, PathDiag path e) ∧
    (∀ (rows : List JValue) (r_idx : Nat) (path : String),
      ∀ e ∈ validate_table_rows reg rows r_idx path, PathDiag path e) ∧
    (∀ (cells : List JValue) (c_idx : Nat) (cp : String),
      ∀ e ∈ validate_table_cells reg cells c_idx cp, PathDiag cp e) ∧
    (∀ (block : List (String × JValue)) (path : String),
      ∀ e ∈ validate_list_block reg block path, PathDiag path e) ∧
    (∀ (items : List JValue) (i : Nat) (path : String),
      ∀ e ∈ validate_list_items reg items i path, PathDiag path e) := by
  apply validate_block.mutual_induct reg
  -- validate_block: not a dict
  · intro block path ho e he
    rcases block with _ | b | n | s | l | es2 <;> try simp [asObj] at ho
    all_goals
      simp only [validate_block, asObj] at he
      replace he := List.mem_singleton.mp he
      subst he
      exact PathDiag.here _ _
  -- validate_block: type tag has no string view
  · intro block path es ho bt hs e he
    have hs2 : asStr (pyGet es ("type")) = none := hs
    obtain rfl := asObj_eq_some ho
    simp only [validate_block, asObj, hs2] at he
    replace he := List.mem_singleton.mp he
    subst he
    exact PathDiag.here2 _ _ _
  -- validate_block: heading
  · intro block path es ho bt hs hc e he
    have hs2 : asStr (pyGet es ("type")) = some "heading" := hs
    obtain rfl := asObj_eq_some ho
    simp only [validate_block, asObj, hs2] at he
    exact validate_heading_block_shape he
  -- validate_block: paragraph
  · intro block path es ho bt hs hc n1 e he
    have hs2 : asStr (pyGet es ("type")) = some "paragraph" := hs
    obtain rfl := asObj_eq_some ho
    simp only [validate_block, asObj, hs2] at he
    exact validate_paragraph_block_shape he
  -- validate_block: list
  · intro block path es ho bt hs hc n1 n2 ihl e he
    have hs2 : asStr (pyGet es ("type")) = some "list" := hs
    obtain rfl := asObj_eq_some ho
    simp only [validate_block, asObj, hs2] at he
    exact ihl e he
  -- validate_block: table
  · intro block path es ho bt hs hc n1 n2 n3 iht e he
    have hs2 : asStr (pyGet es ("type")) = some "table" := hs
    obtain rfl := asObj_eq_some ho
    simp only [validate_block, asObj, hs2] at he
    exact iht e he
  -- validate_block: blockquote
  · intro block path es ho bt hs hc n1 n2 n3 n4 ihq e he
    have hs2 : asStr (pyGet es ("type")) = some "blockquote" := hs
    obtain rfl := asObj_eq_some ho
    simp only [validate_block, asObj, hs2] at he
    exact ihq e he
  -- validate_block: engineQuote
  · intro block path es ho bt hs hc n1 n2 n3 n4 n5 e he
    have hs2 : asStr (pyGet es ("type")) = some "engineQuote" := hs
    obtain rfl := asObj_eq_some ho
    simp only [validate_block, asObj, hs2] at he
    exact validate_engineQuote_block_shape he
  -- validate_block: callout
  · intro block path es ho bt hs hc n1 n2 n3 n4 n5 n6 ihc e he
    have hs2 : asStr (pyGet es ("type")) = some "callout" := hs
    obtain rfl := asObj_eq_some ho
    simp only [validate_block, asObj, hs2] at he
    exact ihc e he
  -- validate_block: kpiGrid
  · intro block path es ho bt hs hc n1 n2 n3 n4 n5 n6 n7 e he
    have hs2 : asStr (pyGet es ("type")) = some "kpiGrid" := hs
    obtain rfl := asObj_eq_some ho
    simp only [validate_block, asObj, hs2] at he
    exact validate_kpiGrid_block_shape he
  -- validate_block: widget
  · intro block path es ho bt hs hc n1 n2 n3 n4 n5 n6 n7 n8 e he
    have hs2 : asStr (pyGet es ("type")) = some "widget" := hs
    obtain rfl := asObj_eq_some ho
    simp only [validate_block, asObj, hs2] at he
    exact validate_widget_block_shape he
  -- validate_block: code
  · intro block path es ho bt hs hc n1 n2 n3 n4 n5 n6 n7 n8 n9 e he
    have hs2 : asStr (pyGet es ("type")) = some "code" := hs
    obtain rfl := asObj_eq_some ho
    simp only [validate_block, asObj, hs2] at he
    exact validate_code_block_shape he
  -- validate_block: math
  · intro block path es ho bt hs hc n1 n2 n3 n4 n5 n6 n7 n8 n9 n10 e he
    have hs2 : asStr (pyGet es ("type")) = some "math" := hs
    obtain rfl := asObj_eq_some ho
    simp only [validate_block, asObj, hs2] at he
    exact validate_math_block_shape he
  -- validate_block: figure
  · intro block path es ho bt hs hc n1 n2 n3 n4 n5 n6 n7 n8 n9 n10 n11 e he
    have hs2 : asStr (pyGet es ("type")) = some "figure" := hs
    obtain rfl := asObj_eq_some ho
    simp only [validate_block, asObj, hs2] at he
    exact validate_figure_block_shape he
  -- validate_block: allowed tag without a checker (vacuous)
  · intro block path es ho bt s hs hc n1 n2 n3 n4 n5 n6 n7 n8 n9 n10 n11 n12 e he
    have hs2 : asStr (pyGet es ("type")) = some s := hs
    obtain rfl := asObj_eq_some ho
    simp only [validate_block, asObj, hs2, hc, n1, n2, n3, n4, n5, n6, n7, n8, n9,
      n10, n11, n12] at he
    simp at he
  -- validate_block: unknown tag
  · intro block path es ho bt s hs hc e he
    have hs2 : asStr (pyGet es ("type")) = some s := hs
    obtain rfl := asObj_eq_some ho
    simp only [validate_block, asObj, hs2, hc] at he
    replace he := List.mem_singleton.mp he
    subst he
    exact PathDiag.here2 _ _ _
  -- validate_callout_block
  · intro block path ih e he
    simp only [validate_callout_block] at he
    rcases List.mem_append.mp he with h | h
    · replace h := mem_ite_nil_singleton h
      subst h
      exact PathDiag.here2 _ _ _
    · split at h
      · split at h
        · replace h := List.mem_singleton.mp h
          subst h
          exact PathDiag.here _ _
        · rename_i bs heq _
          exact PathDiag.step (ih bs heq e h)
      · replace h := List.mem_singleton.mp h
        subst h
        exact PathDiag.here _ _
  -- validate_block_seq: nil
  · intro idx pre e he
    simp [validate_block_seq] at he
  -- validate_block_seq: cons
  · intro idx pre b rest ih1 ih2 e he
    rw [validate_block_seq_cons] at he
    rcases List.mem_append.mp he with h | h
    · exact PathDiag.step (PathDiag.step (PathDiag.step (ih1 e h)))
    · exact ih2 e h
  -- validate_blockquote_block: blocks list empty
  · intro block path items ham hemp e he
    simp only [validate_blockquote_block] at he
    split at he
    · split at he
      · replace he := List.mem_singleton.mp he
        subst he
        exact PathDiag.here _ _
      · rename_i items2 heq hne
        rw [ham] at heq
        obtain rfl : items = items2 := by injection heq
        exact absurd hemp hne
    · replace he := List.mem_singleton.mp he
      subst he
      exact PathDiag.here _ _
  -- validate_blockquote_block: blocks list non-empty
  · intro block path items ham hemp ih e he
    simp only [validate_blockquote_block] at he
    split at he
    · split at he
      · rename_i items2 heq hemp2
        rw [ham] at heq
        obtain rfl : items = items2 := by injection heq
        exact absurd hemp2 hemp
      · rename_i items2 heq hne
        rw [ham] at heq
        obtain rfl : items = items2 := by injection heq
        exact PathDiag.step (ih e he)
    · rename_i heq
      rw [ham] at heq
      exact absurd heq (by simp)
  -- validate_blockquote_block: no blocks list
  · intro block path ham e he
    simp only [validate_blockquote_block] at he
    split at he
    · rename_i items2 heq
      rw [ham] at heq
      exact absurd heq (by simp)
    · replace he := List.mem_singleton.mp he
      subst he
      exact PathDiag.here _ _
  -- validate_table_block: rows empty
  · intro block path rows ham hemp e he
    simp only [validate_table_block] at he
    split at he
    · split at he
      · replace he := List.mem_singleton.mp he
        subst he
        exact PathDiag.here _ _
      · rename_i rows2 heq hne
        rw [ham] at heq
        obtain rfl : rows = rows2 := by injection heq
        exact absurd hemp hne
    · replace he := List.mem_singleton.mp he
      subst he
      exact PathDiag.here _ _
  -- validate_table_block: rows non-empty
  · intro block path rows ham hemp ih e he
    simp only [validate_table_block] at he
    split at he
    · split at he
      · rename_i rows2 heq hemp2
        rw [ham] at heq
        obtain rfl : rows = rows2 := by injection heq
        exact absurd hemp2 hemp
      · rename_i rows2 heq hne
        rw [ham] at heq
        obtain rfl : rows = rows2 := by injection heq
        exact ih e he
    · rename_i heq
      rw [ham] at heq
      exact absurd heq (by simp)
  -- validate_table_block: no rows list
  · intro block path ham e he
    simp only [validate_table_block] at he
    split at he
    · rename_i rows2 heq
      rw [ham] at heq
      exact absurd heq (by simp)
    · replace he := List.mem_singleton.mp he
      subst he
      exact PathDiag.here _ _
  -- validate_table_rows: nil
  · intro r_idx path e he
    simp [validate_table_rows] at he
  -- validate_table_rows: cons
  · intro r_idx path row rest ih1 ih2 e he
    simp only [validate_table_rows] at he
    rcases List.mem_append.mp he with h | h
    · split at h
      · split at h
        · split at h
          · replace h := List.mem_singleton.mp h
            subst h
            exact PathDiag.here3 _ _ _ _
          · rename_i res hro cells hce _
            have := ih1 res hro cells hce e h
            exact PathDiag.step (PathDiag.step (PathDiag.step this))
        · replace h := List.mem_singleton.mp h
          subst h
          exact PathDiag.here3 _ _ _ _
      · replace h := List.mem_singleton.mp h
        subst h
        exact PathDiag.here3 _ _ _ _
    · exact ih2 e h
  -- validate_table_cells: nil
  · intro c_idx cp e he
    simp [validate_table_cells] at he
  -- validate_table_cells: cons
  · intro c_idx cp cell rest ih1 ih2 e he
    simp only [validate_table_cells] at he
    rcases List.mem_append.mp he with h | h
    · split at h
      · split at h
        · split at h
          · replace h := List.mem_singleton.mp h
            subst h
            exact PathDiag.here3 _ _ _ _
          · rename_i ces hco bs hbl _
            have := ih1 ces hco bs hbl e h
            exact PathDiag.step (PathDiag.step (PathDiag.step this))
        · replace h := List.mem_singleton.mp h
          subst h
          exact PathDiag.here3 _ _ _ _
      · replace h := List.mem_singleton.mp h
        subst h
        exact PathDiag.here3 _ _ _ _
    · exact ih2 e h
  -- validate_list_block
  · intro block path ih e he
    simp only [validate_list_block] at he
    rcases List.mem_append.mp he with h | h
    · replace h := mem_ite_nil_singleton h
      subst h
      exact PathDiag.here _ _
    · split at h
      · split at h
        · replace h := List.mem_singleton.mp h
          subst h
          exact PathDiag.here _ _
        · rename_i items heq _
          exact ih items heq e h
      · replace h := List.mem_singleton.mp h
        subst h
        exact PathDiag.here _ _
  -- validate_list_items: nil
  · intro i path e he
    simp [validate_list_items] at he
  -- validate_list_items: cons
  · intro i path item rest ih1 ih2 e he
    simp only [validate_list_items] at he
    rcases List.mem_append.mp he with h | h
    · split at h
      · rename_i subs hia
        have := ih1 subs hia e h
        exact PathDiag.step (PathDiag.step (PathDiag.step this))
      · replace h := List.mem_singleton.mp h
        subst h
        exact PathDiag.here3 _ _ _ _
    · exact ih2 e h

/-- Every diagnostic of a block sequence walk extends the sequence path. -/
theorem validate_block_seq_shape {reg : SchemaRegistry} {bs : List JValue}
    {idx : Nat} {pre e : String} (he : e ∈ validate_block_seq reg bs idx pre) :
    PathDiag pre e :=
  (validate_shape_all reg).2.2.1 bs idx pre e he

/-- Association-list lookups return stored pairs. -/
theorem lookup_mem {α β : Type} [BEq α] [LawfulBEq α] :
    ∀ {l : List (α × β)} {k : α} {v : β}, l.lookup k = some v → (k, v) ∈ l := by
  intro l
  induction l with
  | nil => intro k v h; simp [List.lookup] at h
  | cons kv rest ih =>
    intro k v h
    obtain ⟨a, b⟩ := kv
    rw [List.lookup] at h
    by_cases hk : (k == a) = true
    · rw [hk] at h
      obtain rfl : b = v := by injection h
      obtain rfl : k = a := by simpa using hk
      exact List.mem_cons_self _ _
    · rw [Bool.not_eq_true] at hk
      rw [hk] at h
      exact List.mem_cons_of_mem _ (ih h)

/-- Diagnostics of the j-th nested sub-block of an engineQuote block appear
in the output of the sub-block loop. -/
theorem eq_sub_block_errs_mem {reg : SchemaRegistry} {p : String} :
    ∀ {bs : List JValue} {j idx : Nat} {sub : JValue}, bs.get? j = some sub →
      ∀ {e : String},
        e ∈ eq_sub_block_one reg sub (p ++ ".blocks[" ++ toString (idx + j) ++ "]") →
        e ∈ eq_sub_block_errs reg bs idx p := by
  intro bs
  induction bs with
  | nil => intro j idx sub hj; simp at hj
  | cons hd tl ih =>
    intro j idx sub hj e he
    rw [eq_sub_block_errs]
    cases j with
    | zero =>
      simp only [List.get?] at hj
      obtain rfl : hd = sub := by injection hj
      rw [Nat.add_zero] at he
      exact List.mem_append_left _ he
    | succ j2 =>
      simp only [List.get?] at hj
      rw [show idx + (j2 + 1) = (idx + 1) + j2 by omega] at he
      exact List.mem_append_right _ (ih hj he)

/-- Diagnostics of the j-th inline run of an engineQuote paragraph appear in
the output of the run loop (both the shared inline-run check and the layered
marks check). -/
theorem eq_run_errs_mem {reg : SchemaRegistry} {sp : String} :
    ∀ {runs : List JValue} {j idx : Nat} {run : JValue}, runs.get? j = some run →
      ∀ {e : String},
        e ∈ validate_inline_run reg run
              (sp ++ ".inlines[" ++ toString (idx + j) ++ "]")
            ++ eq_run_extra_errs run (sp ++ ".inlines[" ++ toString (idx + j) ++ "]") →
        e ∈ eq_run_errs reg runs idx sp := by
  intro runs
  induction runs with
  | nil => intro j idx run hj; simp at hj
  | cons hd tl ih =>
    intro j idx run hj e he
    rw [eq_run_errs]
    cases j with
    | zero =>
      simp only [List.get?] at hj
      obtain rfl : hd = run := by injection hj
      rw [Nat.add_zero] at he
      exact List.mem_append_left _ he
    | succ j2 =>
      simp only [List.get?] at hj
      rw [show idx + (j2 + 1) = (idx + 1) + j2 by omega] at he
      exact List.mem_append_right _ (ih hj he)

/-- A mark outside the restricted bold/italic set contributes its diagnostic
to the restricted marks loop. -/
theorem eq_mark_errs_mem {rp : String} :
    ∀ {marks : List JValue} {j idx : Nat} {mark : JValue},
      marks.get? j = some mark → eq_mark_ok mark = false →
      (rp ++ ".marks[" ++ toString (idx + j) ++ "].type 仅允许 bold/italic")
        ∈ eq_mark_errs marks idx rp := by
  intro marks
  induction marks with
  | nil => intro j idx mark hj; simp at hj
  | cons hd tl ih =>
    intro j idx mark hj hbad
    rw [eq_mark_errs]
    cases j with
    | zero =>
      simp only [List.get?] at hj
      obtain rfl : hd = mark := by injection hj
      rw [Nat.add_zero]
      exact List.mem_append_left _ (by rw [hbad]; simp)
    | succ j2 =>
      simp only [List.get?] at hj
      rw [show idx + (j2 + 1) = (idx + 1) + j2 by omega]
      exact List.mem_append_right _ (ih hj hbad)

/-! ## Claim theorems -/

/-- C2: the model of `validate_chapter` is a total pure function (no
exception channel exists and the input is never written); for every input
that is not a dict it short-circuits immediately with `ok = false` and an
error list holding exactly one diagnostic. -/
theorem validate_chapter_not_dict (reg : SchemaRegistry) (chapter : JValue)
    (h : asObj chapter = none) :
    validate_chapter reg chapter = (false, ["chapter必须是对象"]) := by
  simp only [validate_chapter, h]

/-- C2 witness: the short-circuit at a concrete non-dict chapter. -/
theorem validate_chapter_not_dict_witness :
    asObj (JValue.str "oops") = none ∧
    validate_chapter sampleRegistry (JValue.str "oops") =
      (false, ["chapter必须是对象"]) :=
  ⟨rfl, validate_chapter_not_dict sampleRegistry (JValue.str "oops") rfl⟩

/-- C4: a block dict whose type tag is outside the closed vocabulary yields
exactly one diagnostic, naming the path and the offending value, and no
further diagnostics for that block. -/
theorem validate_block_unknown_type (reg : SchemaRegistry)
    (es : List (String × JValue)) (path : String)
    (h : (match asStr (pyGet es ("type")) with
          | some s => ALLOWED_BLOCK_TYPES.contains s
          | none => false) = false) :
    validate_block reg (JValue.obj es) path =
      [path ++ ".type 不被支持: " ++ pyStr (pyGet es ("type"))] := by
  rcases hbt : asStr (pyGet es ("type")) with _ | s
  · simp only [validate_block, asObj, hbt]
  · rw [hbt] at h
    simp only at h
    have hns : ¬ (ALLOWED_BLOCK_TYPES.contains s = true) := by rw [h]; simp
    simp only [validate_block, asObj, hbt]
    rw [if_neg hns]

/-- C4 witness: one unknown string tag and one absent tag, each producing
exactly the single unknown-type diagnostic. -/
theorem validate_block_unknown_type_witness :
    validate_block sampleRegistry (JValue.obj [("type", JValue.str "frobnicate")])
      "blocks[0]" = ["blocks[0].type 不被支持: frobnicate"] ∧
    validate_block sampleRegistry (JValue.obj [("text", JValue.str "x")])
      "blocks[3]" = ["blocks[3].type 不被支持: None"] :=
  ⟨validate_block_unknown_type sampleRegistry _ _ (by decide),
   validate_block_unknown_type sampleRegistry _ _ (by decide)⟩

/-- C10: a chapter dict with the other four required keys present but no
blocks key gets exactly two diagnostics, both about `chapter.blocks` (the
missing-field one and the non-empty-array one), with no per-block checks. -/
theorem validate_chapter_blocks_absent (reg : SchemaRegistry)
    (es : List (String × JValue))
    (h1 : (es.lookup ("chapterId")).isNone = false)
    (h2 : (es.lookup ("title")).isNone = false)
    (h3 : (es.lookup ("anchor")).isNone = false)
    (h4 : (es.lookup ("order")).isNone = false)
    (h5 : es.lookup ("blocks") = none) :
    validate_chapter reg (JValue.obj es) =
      (false, ["missing chapter.blocks", "chapter.blocks必须是非空数组"]) := by
  have hb : pyGet es ("blocks") = JValue.null := by simp [pyGet, h5]
  simp [validate_chapter, asObj, CHAPTER_REQUIRED_FIELDS, List.filter,
    h1, h2, h3, h4, h5, hb, asArr]

/-- C10 witness: a concrete chapter without a blocks key. -/
theorem validate_chapter_blocks_absent_witness :
    validate_chapter sampleRegistry
      (JValue.obj [("chapterId", JValue.str "c1"), ("title", JValue.str "t"),
        ("anchor", JValue.str "a"), ("order", JValue.int 1)]) =
      (false, ["missing chapter.blocks", "chapter.blocks必须是非空数组"]) :=
  validate_chapter_blocks_absent sampleRegistry _
    (by decide) (by decide) (by decide) (by decide) rfl

/-- C1 counterexample: a chapter dict whose blocks key holds an empty list
but whose other required keys are absent; the claim promises an error list
of exactly one diagnostic, yet five diagnostics are returned. -/
theorem blocks_invalid_not_single_diag :
    List.lookup ("blocks") [(("blocks" : String), JValue.arr [])] =
      some (JValue.arr []) ∧
    (validate_chapter sampleRegistry (JValue.obj [("blocks", JValue.arr [])])).2 =
      ["missing chapter.chapterId", "missing chapter.title",
       "missing chapter.anchor", "missing chapter.order",
       "chapter.blocks必须是非空数组"] ∧
    (validate_chapter sampleRegistry
        (JValue.obj [("blocks", JValue.arr [])])).2.length ≠ 1 := by
  refine ⟨rfl, by decide, by decide⟩

/-- C1 (amended): when the blocks key is present but its value is empty or
not a list, `validate_chapter` returns `ok = false`; its error list is the
missing-field diagnostics of the other four required keys followed by
exactly one diagnostic about `chapter.blocks`, and no per-block checks are
attempted. -/
theorem validate_chapter_blocks_invalid (reg : SchemaRegistry)
    (es : List (String × JValue)) (v : JValue)
    (hp : es.lookup ("blocks") = some v)
    (hbad : asArr v = none ∨ v = JValue.arr []) :
    validate_chapter reg (JValue.obj es) =
      (false,
       ((["chapterId", "title", "anchor", "order"].filter
          (fun f => (es.lookup f).isNone)).map
            (fun f => "missing chapter." ++ f))
       ++ ["chapter.blocks必须是非空数组"]) := by
  have hv : pyGet es ("blocks") = v := by simp [pyGet, hp]
  have hfive : CHAPTER_REQUIRED_FIELDS.filter (fun f => (es.lookup f).isNone) =
      ["chapterId", "title", "anchor", "order"].filter
        (fun f => (es.lookup f).isNone) := by
    simp [CHAPTER_REQUIRED_FIELDS, List.filter, hp]
  rcases hbad with hnone | rfl
  · simp only [validate_chapter, asObj, hv, hnone, hfive]
  · simp only [validate_chapter, asObj, hv, asArr, hfive]
    simp

/-- C1 witness: blocks holds a non-list value while all other keys are
present, so exactly the single blocks diagnostic is produced. -/
theorem validate_chapter_blocks_invalid_witness :
    validate_chapter sampleRegistry
      (JValue.obj [("chapterId", JValue.str "c1"), ("title", JValue.str "t"),
        ("anchor", JValue.str "a"), ("order", JValue.int 1),
        ("blocks", JValue.str "nope")]) =
      (false, ["chapter.blocks必须是非空数组"]) := by
  have h := validate_chapter_blocks_invalid sampleRegistry
    [("chapterId", JValue.str "c1"), ("title", JValue.str "t"),
     ("anchor", JValue.str "a"), ("order", JValue.int 1),
     ("blocks", JValue.str "nope")] (JValue.str "nope") rfl (Or.inl rfl)
  rw [h]
  decide

/-- C3: engineQuote engine/title coupling.  Part (a): a case-insensitively
valid engine whose title equals the canonical registry title yields no
engine or title diagnostic.  Part (b): a valid engine with a mismatched
string title yields exactly the single title-must-match diagnostic.
Part (c): an engine outside the set yields the invalid-engine diagnostic,
no title-equality comparison is performed (with the registry keyed only by
the three engines, as the spec fixes), while the missing/wrong-type checks
on the title still run. -/
theorem engineQuote_engine_title_coupling (reg : SchemaRegistry)
    (block : List (String × JValue)) (path : String) :
    (∀ eng ct, engineQuote_engine block = some eng →
      (eng = "insight" ∨ eng = "media" ∨ eng = "query") →
      reg.ENGINE_AGENT_TITLES.lookup eng = some ct →
      pyGet block ("title") = JValue.str ct →
      engineQuote_engine_title_errs reg block path = []) ∧
    (∀ eng ct t, engineQuote_engine block = some eng →
      (eng = "insight" ∨ eng = "media" ∨ eng = "query") →
      reg.ENGINE_AGENT_TITLES.lookup eng = some ct → ct ≠ "" →
      pyGet block ("title") = JValue.str t → t ≠ ct →
      engineQuote_engine_title_errs reg block path =
        [path ++ ".title 必须与engine一致，使用对应Agent名称: " ++ ct]) ∧
    ((∀ eng, engineQuote_engine block = some eng →
        ¬(eng = "insight" ∨ eng = "media" ∨ eng = "query")) →
      (∀ kv ∈ reg.ENGINE_AGENT_TITLES,
        kv.1 = "insight" ∨ kv.1 = "media" ∨ kv.1 = "query") →
      engineQuote_engine_title_errs reg block path =
        (path ++ ".engine 取值非法: " ++ pyStr (pyGet block ("engine"))) ::
        (match pyGet block ("title") with
         | JValue.null => [path ++ ".title 缺失"]
         | JValue.str _ => []
         | _ => [path ++ ".title 必须是字符串"])) := by
  refine ⟨?_, ?_, ?_⟩
  · intro eng ct heng hmem hct htitle
    rcases hmem with rfl | rfl | rfl <;>
      simp [engineQuote_engine_title_errs, heng, hct, htitle]
  · intro eng ct t heng hmem hct hctne htitle htne
    rcases hmem with rfl | rfl | rfl <;>
      simp [engineQuote_engine_title_errs, heng, hct, htitle, hctne, htne]
  · intro hinv hkeys
    rcases hengOpt : engineQuote_engine block with _ | eng
    · rcases htv : pyGet block ("title") with _ | b | n | t | l | o <;>
        simp [engineQuote_engine_title_errs, hengOpt, htv]
    · have hni := hinv eng hengOpt
      have hn1 : eng ≠ "insight" := fun h => hni (Or.inl h)
      have hn2 : eng ≠ "media" := fun h => hni (Or.inr (Or.inl h))
      have hn3 : eng ≠ "query" := fun h => hni (Or.inr (Or.inr h))
      have hlk : (if eng = "" then (none : Option String)
          else reg.ENGINE_AGENT_TITLES.lookup eng) = none := by
        by_cases h0 : eng = ""
        · simp [h0]
        · rcases hlk2 : reg.ENGINE_AGENT_TITLES.lookup eng with _ | v
          · simp [h0, hlk2]
          · exact absurd (hkeys _ (lookup_mem hlk2)) hni
      rcases htv : pyGet block ("title") with _ | b | n | t | l | o <;>
        simp [engineQuote_engine_title_errs, hengOpt, htv, hn1, hn2, hn3, hlk]

/-- C3 witness: the three couplings at concrete engineQuote field sets, with
a mixed-case engine for part (a). -/
theorem engineQuote_engine_title_coupling_witness :
    engineQuote_engine_title_errs sampleRegistry
      [("engine", JValue.str "Insight"), ("title", JValue.str "InsightAgent")]
      "blocks[0]" = [] ∧
    engineQuote_engine_title_errs sampleRegistry
      [("engine", JValue.str "insight"), ("title", JValue.str "WrongTitle")]
      "blocks[0]" =
      ["blocks[0].title 必须与engine一致，使用对应Agent名称: InsightAgent"] ∧
    engineQuote_engine_title_errs sampleRegistry
      [("engine", JValue.str "frob"), ("title", JValue.str "whatever")]
      "blocks[0]" = ["blocks[0].engine 取值非法: frob"] := by
  refine ⟨?_, ?_, ?_⟩
  · exact (engineQuote_engine_title_coupling sampleRegistry
      [("engine", JValue.str "Insight"), ("title", JValue.str "InsightAgent")] "blocks[0]").1 "insight"
      "InsightAgent" (by decide) (by decide) (by decide) rfl
  · have h := (engineQuote_engine_title_coupling sampleRegistry
      [("engine", JValue.str "insight"), ("title", JValue.str "WrongTitle")] "blocks[0]").2.1 "insight"
      "InsightAgent" "WrongTitle" (by decide) (by decide) (by decide) (by decide)
      rfl (by decide)
    rw [h]
    decide
  · have h := (engineQuote_engine_title_coupling sampleRegistry
      [("engine", JValue.str "frob"), ("title", JValue.str "whatever")] "blocks[0]").2.2
      (by intro eng he
          have h2 : some ("frob" : String) = some eng := he
          obtain rfl : "frob" = eng := by injection h2
          decide)
      (by decide)
    rw [h]
    decide

/-- C6: inside an engineQuote block, a paragraph inline-run mark whose type
is outside bold/italic yields the restricted-marks diagnostic at that mark
path, for every registry (in particular when the mark type is globally
allowed); and every diagnostic of the shared `_validate_inline_run` check of
that run also appears in the engineQuote output, the narrower check being
layered on top of it. -/
theorem engineQuote_mark_restriction (reg : SchemaRegistry)
    (block : List (String × JValue)) (path : String)
    (bs : List JValue) (idx : Nat) (ses : List (String × JValue))
    (runs : List JValue) (ridx : Nat) (res : List (String × JValue))
    (marks : List JValue) (midx : Nat) (mark : JValue)
    (hbs : asArr (pyGet block ("blocks")) = some bs)
    (hsub : bs.get? idx = some (JValue.obj ses))
    (hpar : pyGet ses ("type") = JValue.str "paragraph")
    (hruns : asArr (pyGet ses ("inlines")) = some runs)
    (hrun : runs.get? ridx = some (JValue.obj res))
    (hmarks : (if pyTruthy (pyGet res ("marks")) then pyGet res ("marks")
               else JValue.arr []) = JValue.arr marks)
    (hmark : marks.get? midx = some mark)
    (hbad : eq_mark_ok mark = false) :
    (path ++ ".blocks[" ++ toString idx ++ "]" ++ ".inlines[" ++ toString ridx
       ++ "]" ++ ".marks[" ++ toString midx ++ "].type 仅允许 bold/italic")
      ∈ validate_engineQuote_block reg block path ∧
    ∀ d ∈ validate_inline_run reg (JValue.obj res)
        (path ++ ".blocks[" ++ toString idx ++ "]" ++ ".inlines[" ++ toString ridx ++ "]"),
      d ∈ validate_engineQuote_block reg block path := by
  have hne : bs.isEmpty = false := by
    cases bs with
    | nil => simp at hsub
    | cons a t => rfl
  have hrne : runs.isEmpty = false := by
    cases runs with
    | nil => simp at hrun
    | cons a t => rfl
  have hout : ∀ {d : String}, d ∈ eq_sub_block_errs reg bs 0 path →
      d ∈ validate_engineQuote_block reg block path := by
    intro d hd
    unfold validate_engineQuote_block
    apply List.mem_append_right
    simp only [hbs, hne, Bool.false_eq_true, if_false]
    exact hd
  have hsubout : ∀ {d : String},
      d ∈ eq_run_errs reg runs 0 (path ++ ".blocks[" ++ toString idx ++ "]") →
      d ∈ eq_sub_block_errs reg bs 0 path := by
    intro d hd
    have hp2 : asStr (pyGet ses ("type")) = some "paragraph" := by rw [hpar]; rfl
    have hone : d ∈ eq_sub_block_one reg (JValue.obj ses)
        (path ++ ".blocks[" ++ toString (0 + idx) ++ "]") := by
      rw [Nat.zero_add]
      simp only [eq_sub_block_one, hp2, hruns, hrne, Bool.false_eq_true, if_false]
      first
      | exact hd
      | simpa using hd
    exact eq_sub_block_errs_mem hsub hone
  have hrunout : ∀ {d : String},
      d ∈ validate_inline_run reg (JValue.obj res)
            (path ++ ".blocks[" ++ toString idx ++ "]" ++ ".inlines[" ++ toString ridx ++ "]")
          ++ eq_run_extra_errs (JValue.obj res)
            (path ++ ".blocks[" ++ toString idx ++ "]" ++ ".inlines[" ++ toString ridx ++ "]") →
      d ∈ eq_run_errs reg runs 0 (path ++ ".blocks[" ++ toString idx ++ "]") := by
    intro d hd
    have hd2 : d ∈ validate_inline_run reg (JValue.obj res)
          (path ++ ".blocks[" ++ toString idx ++ "]" ++ ".inlines[" ++ toString (0 + ridx) ++ "]")
        ++ eq_run_extra_errs (JValue.obj res)
          (path ++ ".blocks[" ++ toString idx ++ "]" ++ ".inlines[" ++ toString (0 + ridx) ++ "]") := by
      rw [Nat.zero_add]
      exact hd
    exact eq_run_errs_mem hrun hd2
  constructor
  · apply hout
    apply hsubout
    apply hrunout
    apply List.mem_append_right
    simp only [eq_run_extra_errs, hmarks]
    have := @eq_mark_errs_mem
      (path ++ ".blocks[" ++ toString idx ++ "]" ++ ".inlines[" ++ toString ridx ++ "]")
      marks midx 0 mark hmark hbad
    rw [Nat.zero_add] at this
    exact this
  · intro d hd
    exact hout (hsubout (hrunout (List.mem_append_left _ hd)))

/-- C6 witness: an underline mark (globally allowed by the sample registry)
inside an engineQuote paragraph produces the restricted-marks diagnostic,
and the shared inline-run diagnostics (here: a missing text field) are
also layered into the engineQuote output. -/
theorem engineQuote_mark_restriction_witness :
    ("blocks[2]" ++ ".blocks[" ++ toString 0 ++ "]" ++ ".inlines[" ++ toString 0
       ++ "]" ++ ".marks[" ++ toString 0 ++ "].type 仅允许 bold/italic")
      ∈ validate_engineQuote_block sampleRegistry
        [("engine", JValue.str "media"), ("title", JValue.str "MediaAgent"),
         ("blocks", JValue.arr [JValue.obj [("type", JValue.str "paragraph"),
           ("inlines", JValue.arr [JValue.obj
             [("marks", JValue.arr [JValue.obj [("type", JValue.str "underline")]])]])]])]
        "blocks[2]" ∧
    "underline" ∈ sampleRegistry.ALLOWED_INLINE_MARKS ∧
    ∀ d ∈ validate_inline_run sampleRegistry
        (JValue.obj [("marks", JValue.arr [JValue.obj [("type", JValue.str "underline")]])])
        ("blocks[2]" ++ ".blocks[" ++ toString 0 ++ "]" ++ ".inlines[" ++ toString 0 ++ "]"),
      d ∈ validate_engineQuote_block sampleRegistry
        [("engine", JValue.str "media"), ("title", JValue.str "MediaAgent"),
         ("blocks", JValue.arr [JValue.obj [("type", JValue.str "paragraph"),
           ("inlines", JValue.arr [JValue.obj
             [("marks", JValue.arr [JValue.obj [("type", JValue.str "underline")]])]])]])]
        "blocks[2]" := by
  have h := engineQuote_mark_restriction sampleRegistry
    [("engine", JValue.str "media"), ("title", JValue.str "MediaAgent"),
     ("blocks", JValue.arr [JValue.obj [("type", JValue.str "paragraph"),
       ("inlines", JValue.arr [JValue.obj
         [("marks", JValue.arr [JValue.obj [("type", JValue.str "underline")]])]])]])]
    "blocks[2]"
    [JValue.obj [("type", JValue.str "paragraph"),
       ("inlines", JValue.arr [JValue.obj
         [("marks", JValue.arr [JValue.obj [("type", JValue.str "underline")]])]])]]
    0
    [("type", JValue.str "paragraph"),
     ("inlines", JValue.arr [JValue.obj
       [("marks", JValue.arr [JValue.obj [("type", JValue.str "underline")]])]])]
    [JValue.obj [("marks", JValue.arr [JValue.obj [("type", JValue.str "underline")]])]]
    0
    [("marks", JValue.arr [JValue.obj [("type", JValue.str "underline")]])]
    [JValue.obj [("type", JValue.str "underline")]]
    0
    (JValue.obj [("type", JValue.str "underline")])
    rfl rfl rfl rfl rfl rfl rfl (by decide)
  exact ⟨h.1, by decide, h.2⟩

/-- C9: the top-level fields chapterId, title, anchor and order are checked
for presence only: whenever all five required keys are present and blocks is
a non-empty list whose members all validate cleanly, the chapter passes with
no diagnostics, whatever the values of the other four fields. -/
theorem validate_chapter_presence_only (reg : SchemaRegistry)
    (es : List (String × JValue)) (bs : List JValue)
    (h1 : (es.lookup ("chapterId")).isNone = false)
    (h2 : (es.lookup ("title")).isNone = false)
    (h3 : (es.lookup ("anchor")).isNone = false)
    (h4 : (es.lookup ("order")).isNone = false)
    (h5 : es.lookup ("blocks") = some (JValue.arr bs))
    (hne : bs.isEmpty = false)
    (hall : ∀ j b, bs.get? j = some b →
      validate_block reg b ("blocks" ++ "[" ++ toString j ++ "]") = []) :
    validate_chapter reg (JValue.obj es) = (true, []) := by
  have hb : asArr (pyGet es ("blocks")) = some bs := by simp [pyGet, h5, asArr]
  have h5n : (es.lookup ("blocks")).isNone = false := by rw [h5]; rfl
  have hseq : validate_block_seq reg bs 0 "blocks" = [] := by
    apply validate_block_seq_eq_nil
    intro j b hj
    rw [Nat.zero_add]
    exact hall j b hj
  simp [validate_chapter, asObj, CHAPTER_REQUIRED_FIELDS, List.filter,
    h1, h2, h3, h4, h5n, hb, hne, hseq]

/-- C9 witness: a chapter whose title is an integer, anchor a boolean and
order a string still passes when all keys are present and the single block
is valid. -/
theorem validate_chapter_presence_only_witness :
    validate_chapter sampleRegistry
      (JValue.obj [("chapterId", JValue.int 7), ("title", JValue.int 99),
        ("anchor", JValue.bool true), ("order", JValue.str "x"),
        ("blocks", JValue.arr [JValue.obj [("type", JValue.str "code"),
          ("content", JValue.str "pass")]])]) = (true, []) := by
  refine validate_chapter_presence_only sampleRegistry _ _
    (by decide) (by decide) (by decide) (by decide) rfl rfl ?_
  intro j b hj
  cases j with
  | zero =>
    obtain rfl : JValue.obj [("type", JValue.str "code"),
        ("content", JValue.str "pass")] = b := by injection hj
    simp [validate_block, asObj, asStr, pyGet, List.lookup, ALLOWED_BLOCK_TYPES,
      validate_code_block]
  | succ j2 => simp at hj

/-- C8: path fidelity.  For a chapter whose block at index i is a list block
with two items, the second item being a block array opening with a heading
whose level is absent or not an integer, the level diagnostic is addressed
exactly at blocks[i].items[1][0].level, with 0-based indices reflecting the
positions in the enclosing sequences. -/
theorem list_item_heading_path (reg : SchemaRegistry)
    (es : List (String × JValue)) (bs : List JValue) (i : Nat)
    (les : List (String × JValue)) (it0 : JValue)
    (hes : List (String × JValue)) (hrest : List JValue)
    (hblocks : es.lookup ("blocks") = some (JValue.arr bs))
    (hbi : bs.get? i = some (JValue.obj les))
    (htype : les.lookup ("type") = some (JValue.str "list"))
    (hitems : les.lookup ("items") =
      some (JValue.arr [it0, JValue.arr (JValue.obj hes :: hrest)]))
    (hhtype : hes.lookup ("type") = some (JValue.str "heading"))
    (hlevel : (match hes.lookup ("level") with
               | some v => isPyInt v
               | none => false) = false) :
    ("blocks" ++ "[" ++ toString i ++ "]" ++ ".items[" ++ toString 1 ++ "]"
      ++ "[" ++ toString 0 ++ "]" ++ ".level 必须是整数")
      ∈ (validate_chapter reg (JValue.obj es)).2 := by
  have hb : asArr (pyGet es ("blocks")) = some bs := by
    simp [pyGet, hblocks, asArr]
  have hne : bs.isEmpty = false := by
    cases bs with
    | nil => simp at hbi
    | cons a t => rfl
  -- the level diagnostic inside the heading checker
  have hhead : ("blocks" ++ "[" ++ toString i ++ "]" ++ ".items[" ++ toString 1
        ++ "]" ++ "[" ++ toString 0 ++ "]" ++ ".level 必须是整数")
      ∈ validate_heading_block hes
        ("blocks" ++ "[" ++ toString i ++ "]" ++ ".items[" ++ toString 1 ++ "]"
          ++ "[" ++ toString 0 ++ "]") := by
    unfold validate_heading_block
    apply List.mem_append_left
    apply List.mem_append_left
    rw [if_neg (by simp [hlevel])]
    exact List.mem_singleton.mpr rfl
  -- the heading checker inside the dispatching block walk
  have hstep1 : ∀ {d : String},
      d ∈ validate_heading_block hes
        ("blocks" ++ "[" ++ toString i ++ "]" ++ ".items[" ++ toString 1 ++ "]"
          ++ "[" ++ toString 0 ++ "]") →
      d ∈ validate_block reg (JValue.obj hes)
        ("blocks" ++ "[" ++ toString i ++ "]" ++ ".items[" ++ toString 1 ++ "]"
          ++ "[" ++ toString 0 ++ "]") := by
    intro d hd
    have hh2 : asStr (pyGet hes ("type")) = some "heading" := by
      simp [pyGet, hhtype, asStr]
    simp [validate_block, asObj, hh2, ALLOWED_BLOCK_TYPES]
    exact hd
  -- the heading block is element 0 of the inner block array
  have hstep2 : ∀ {d : String},
      d ∈ validate_block reg (JValue.obj hes)
        ("blocks" ++ "[" ++ toString i ++ "]" ++ ".items[" ++ toString 1 ++ "]"
          ++ "[" ++ toString 0 ++ "]") →
      d ∈ validate_block_seq reg (JValue.obj hes :: hrest) 0
        ("blocks" ++ "[" ++ toString i ++ "]" ++ ".items[" ++ toString 1 ++ "]") := by
    intro d hd
    exact @validate_block_seq_mem reg
      ("blocks" ++ "[" ++ toString i ++ "]" ++ ".items[" ++ toString 1 ++ "]")
      (JValue.obj hes :: hrest) 0 0 (JValue.obj hes) rfl d hd
  -- the inner array is item 1 of the items loop
  have hstep3 : ∀ {d : String},
      d ∈ validate_block_seq reg (JValue.obj hes :: hrest) 0
        ("blocks" ++ "[" ++ toString i ++ "]" ++ ".items[" ++ toString 1 ++ "]") →
      d ∈ validate_list_items reg [it0, JValue.arr (JValue.obj hes :: hrest)] 0
        ("blocks" ++ "[" ++ toString i ++ "]") := by
    intro d hd
    rw [validate_list_items]
    apply List.mem_append_right
    rw [validate_list_items]
    apply List.mem_append_left
    exact hd
  -- the items loop inside the list-block checker
  have hitemsGet : asArr (pyGet les ("items")) =
      some [it0, JValue.arr (JValue.obj hes :: hrest)] := by
    simp [pyGet, hitems, asArr]
  have hstep4 : ∀ {d : String},
      d ∈ validate_list_items reg [it0, JValue.arr (JValue.obj hes :: hrest)] 0
        ("blocks" ++ "[" ++ toString i ++ "]") →
      d ∈ validate_list_block reg les ("blocks" ++ "[" ++ toString i ++ "]") := by
    intro d hd
    simp only [validate_list_block]
    apply List.mem_append_right
    split
    · rename_i items2 heq
      rw [hitemsGet] at heq
      obtain rfl : [it0, JValue.arr (JValue.obj hes :: hrest)] = items2 := by
        injection heq
      split
      · rename_i hemp
        simp at hemp
      · exact hd
    · rename_i heq
      rw [hitemsGet] at heq
      exact absurd heq (by simp)
  -- the list block is dispatched from the block walk at index i
  have hstep5 : ∀ {d : String},
      d ∈ validate_list_block reg les ("blocks" ++ "[" ++ toString i ++ "]") →
      d ∈ validate_block reg (JValue.obj les) ("blocks" ++ "[" ++ toString i ++ "]") := by
    intro d hd
    have hl2 : asStr (pyGet les ("type")) = some "list" := by
      simp [pyGet, htype, asStr]
    simp [validate_block, asObj, hl2, ALLOWED_BLOCK_TYPES]
    exact hd
  -- the block at index i inside the chapter walk
  have hstep6 : ∀ {d : String},
      d ∈ validate_block reg (JValue.obj les) ("blocks" ++ "[" ++ toString i ++ "]") →
      d ∈ validate_block_seq reg bs 0 "blocks" := by
    intro d hd
    have hd2 : d ∈ validate_block reg (JValue.obj les)
        ("blocks" ++ "[" ++ toString (0 + i) ++ "]") := by
      rw [Nat.zero_add]
      exact hd
    exact validate_block_seq_mem hbi hd2
  -- assemble inside validate_chapter
  have hfinal := hstep6 (hstep5 (hstep4 (hstep3 (hstep2 (hstep1 hhead)))))
  simp only [validate_chapter, asObj, hb, hne, Bool.false_eq_true, if_false]
  exact List.mem_append_right _ hfinal

/-- C8 witness: a concrete chapter exhibiting the blocks[0].items[1][0].level
diagnostic path. -/
theorem list_item_heading_path_witness :
    ("blocks" ++ "[" ++ toString 0 ++ "]" ++ ".items[" ++ toString 1 ++ "]"
      ++ "[" ++ toString 0 ++ "]" ++ ".level 必须是整数")
      ∈ (validate_chapter sampleRegistry (JValue.obj
        [("chapterId", JValue.int 1), ("title", JValue.str "t"),
         ("anchor", JValue.str "a"), ("order", JValue.int 1),
         ("blocks", JValue.arr [JValue.obj
           [("type", JValue.str "list"), ("listType", JValue.str "bullet"),
            ("items", JValue.arr [JValue.arr [],
              JValue.arr [JValue.obj [("type", JValue.str "heading")]]])]])])).2 :=
  list_item_heading_path sampleRegistry _ _ 0 _ (JValue.arr []) _ [] rfl rfl rfl
    rfl rfl (by decide)

/-- Missing-field diagnostics and block diagnostics start with different
characters, so a block diagnostic never doubles as a missing-field one. -/
theorem pathDiag_blocks_ne_missing {e : String} (h : PathDiag "blocks" e)
    (f : String) : e ≠ "missing chapter." ++ f := by
  obtain ⟨t, rfl⟩ := h
  intro heq
  have hd := congrArg String.data heq
  rw [String.data_append, String.data_append] at hd
  have hb : "blocks".data = 'b' :: "locks".data := by decide
  have hm : "missing chapter.".data = 'm' :: "issing chapter.".data := by decide
  rw [hb, hm] at hd
  rw [List.cons_append, List.cons_append] at hd
  injection hd with h1 _
  exact absurd h1 (by decide)

/-- The fixed blocks-shape diagnostic is not a missing-field diagnostic. -/
theorem missing_ne_blocks_diag (f : String) :
    ("missing chapter." ++ f) ≠ "chapter.blocks必须是非空数组" := by
  intro heq
  have hd := congrArg String.data heq
  rw [String.data_append] at hd
  have hm : "missing chapter.".data = 'm' :: "issing chapter.".data := by decide
  have hc : "chapter.blocks必须是非空数组".data =
      'c' :: "hapter.blocks必须是非空数组".data := by decide
  rw [hm, hc] at hd
  rw [List.cons_append] at hd
  injection hd with h1 _
  exact absurd h1 (by decide)

/-- Prefixing with the missing-field template is injective. -/
theorem missing_diag_injective :
    Function.Injective (fun f => "missing chapter." ++ f) := by
  intro a b h
  simp only at h
  have hd := congrArg String.data h
  rw [String.data_append, String.data_append] at hd
  replace hd := List.append_cancel_left hd
  exact String.ext hd

/-- C7: for a chapter dict missing at least one required key,
`validate_chapter` reports failure and its error list holds exactly one
missing-field diagnostic for each absent required key (and none for the
present ones). -/
theorem validate_chapter_missing_fields (reg : SchemaRegistry)
    (es : List (String × JValue))
    (hmiss : ∃ f ∈ CHAPTER_REQUIRED_FIELDS, (es.lookup f).isNone = true) :
    (validate_chapter reg (JValue.obj es)).1 = false ∧
    ∀ f ∈ CHAPTER_REQUIRED_FIELDS,
      ((validate_chapter reg (JValue.obj es)).2.count ("missing chapter." ++ f)) =
        (if (es.lookup f).isNone = true then 1 else 0) := by
  have hnodup : CHAPTER_REQUIRED_FIELDS.Nodup := by decide
  have hcount_ms : ∀ f ∈ CHAPTER_REQUIRED_FIELDS,
      (((CHAPTER_REQUIRED_FIELDS.filter (fun g => (es.lookup g).isNone)).map
        (fun g => "missing chapter." ++ g)).count ("missing chapter." ++ f)) =
        (if (es.lookup f).isNone = true then 1 else 0) := by
    intro f hf
    rw [List.count_map_of_injective _ _ missing_diag_injective]
    by_cases hp : (es.lookup f).isNone = true
    · rw [if_pos hp]
      have hfm : f ∈ CHAPTER_REQUIRED_FIELDS.filter (fun g => (es.lookup g).isNone) :=
        List.mem_filter.mpr ⟨hf, hp⟩
      exact List.count_eq_one_of_mem (hnodup.filter _) hfm
    · rw [if_neg hp]
      rw [List.count_eq_zero]
      intro hmem
      exact hp (List.mem_filter.mp hmem).2
  have hms_mem : ("missing chapter." ++ Classical.choose hmiss) ∈
      (CHAPTER_REQUIRED_FIELDS.filter (fun g => (es.lookup g).isNone)).map
        (fun g => "missing chapter." ++ g) := by
    obtain ⟨hf, hn⟩ := Classical.choose_spec hmiss
    exact List.mem_map_of_mem _ (List.mem_filter.mpr ⟨hf, hn⟩)
  rcases hbv : asArr (pyGet es ("blocks")) with _ | bs
  · have hres : validate_chapter reg (JValue.obj es) =
        (false, (CHAPTER_REQUIRED_FIELDS.filter (fun g => (es.lookup g).isNone)).map
          (fun g => "missing chapter." ++ g) ++ ["chapter.blocks必须是非空数组"]) := by
      simp only [validate_chapter, asObj, hbv]
    rw [hres]
    refine ⟨rfl, ?_⟩
    intro f hf
    rw [List.count_append, hcount_ms f hf]
    have hz : List.count ("missing chapter." ++ f) ["chapter.blocks必须是非空数组"] = 0 := by
      rw [List.count_eq_zero]
      simp [missing_ne_blocks_diag f]
    rw [hz, Nat.add_zero]
  · by_cases hemp : bs.isEmpty = true
    · have hres : validate_chapter reg (JValue.obj es) =
          (false, (CHAPTER_REQUIRED_FIELDS.filter (fun g => (es.lookup g).isNone)).map
            (fun g => "missing chapter." ++ g) ++ ["chapter.blocks必须是非空数组"]) := by
        simp only [validate_chapter, asObj, hbv, hemp, if_true]
      rw [hres]
      refine ⟨rfl, ?_⟩
      intro f hf
      rw [List.count_append, hcount_ms f hf]
      have hz : List.count ("missing chapter." ++ f) ["chapter.blocks必须是非空数组"] = 0 := by
        rw [List.count_eq_zero]
        simp [missing_ne_blocks_diag f]
      rw [hz, Nat.add_zero]
    · have hres : validate_chapter reg (JValue.obj es) =
          (((CHAPTER_REQUIRED_FIELDS.filter (fun g => (es.lookup g).isNone)).map
              (fun g => "missing chapter." ++ g)
            ++ validate_block_seq reg bs 0 "blocks").isEmpty,
           (CHAPTER_REQUIRED_FIELDS.filter (fun g => (es.lookup g).isNone)).map
              (fun g => "missing chapter." ++ g)
            ++ validate_block_seq reg bs 0 "blocks") := by
        simp only [validate_chapter, asObj, hbv, hemp, Bool.false_eq_true, if_false]
      rw [hres]
      constructor
      · have : ¬((CHAPTER_REQUIRED_FIELDS.filter (fun g => (es.lookup g).isNone)).map
            (fun g => "missing chapter." ++ g)
          ++ validate_block_seq reg bs 0 "blocks") = [] := by
          intro hnil
          have := List.mem_append_left (validate_block_seq reg bs 0 "blocks") hms_mem
          rw [hnil] at this
          simp at this
        simpa [List.isEmpty_iff] using this
      · intro f hf
        rw [List.count_append, hcount_ms f hf]
        have hz : List.count ("missing chapter." ++ f)
            (validate_block_seq reg bs 0 "blocks") = 0 := by
          rw [List.count_eq_zero]
          intro hmem
          exact pathDiag_blocks_ne_missing (validate_block_seq_shape hmem) f rfl
        rw [hz, Nat.add_zero]

/-- C7 witness: a chapter missing title and order gets exactly one
missing-field diagnostic for a missing key and none for a present key. -/
theorem validate_chapter_missing_fields_witness :
    (validate_chapter sampleRegistry (JValue.obj
      [("chapterId", JValue.str "c"), ("anchor", JValue.str "a"),
       ("blocks", JValue.arr [JValue.obj [("type", JValue.str "code"),
         ("content", JValue.str "x")]])])).1 = false ∧
    ((validate_chapter sampleRegistry (JValue.obj
      [("chapterId", JValue.str "c"), ("anchor", JValue.str "a"),
       ("blocks", JValue.arr [JValue.obj [("type", JValue.str "code"),
         ("content", JValue.str "x")]])])).2.count
       ("missing chapter." ++ "title")) = 1 ∧
    ((validate_chapter sampleRegistry (JValue.obj
      [("chapterId", JValue.str "c"), ("anchor", JValue.str "a"),
       ("blocks", JValue.arr [JValue.obj [("type", JValue.str "code"),
         ("content", JValue.str "x")]])])).2.count
       ("missing chapter." ++ "chapterId")) = 0 := by
  have h := validate_chapter_missing_fields sampleRegistry
    [("chapterId", JValue.str "c"), ("anchor", JValue.str "a"),
     ("blocks", JValue.arr [JValue.obj [("type", JValue.str "code"),
       ("content", JValue.str "x")]])]
    ⟨"title", by decide, by decide⟩
  refine ⟨h.1, ?_, ?_⟩
  · have h2 := h.2 "title" (by decide)
    rw [h2]
    decide
  · have h2 := h.2 "chapterId" (by decide)
    rw [h2]
    decide

/-- C5: the duplicate diagnostic.  An engineQuote paragraph whose inline run
carries a truthy non-list marks value makes the shared inline-run check and
the engineQuote layer emit the identical marks-must-be-array string at the
same path, so one validate call returns the same diagnostic string twice. -/
theorem duplicate_marks_diagnostic :
    (validate_chapter sampleRegistry (JValue.obj
      [("chapterId", JValue.int 1), ("title", JValue.str "t"),
       ("anchor", JValue.str "a"), ("order", JValue.int 1),
       ("blocks", JValue.arr [JValue.obj
         [("type", JValue.str "engineQuote"), ("engine", JValue.str "insight"),
          ("title", JValue.str "InsightAgent"),
          ("blocks", JValue.arr [JValue.obj
            [("type", JValue.str "paragraph"),
             ("inlines", JValue.arr [JValue.obj
               [("text", JValue.str "x"), ("marks", JValue.str "abc")]])]])]])])).2 =
      ["blocks[0].blocks[0].inlines[0].marks 必须是数组",
       "blocks[0].blocks[0].inlines[0].marks 必须是数组"] ∧
    ((validate_chapter sampleRegistry (JValue.obj
      [("chapterId", JValue.int 1), ("title", JValue.str "t"),
       ("anchor", JValue.str "a"), ("order", JValue.int 1),
       ("blocks", JValue.arr [JValue.obj
         [("type", JValue.str "engineQuote"), ("engine", JValue.str "insight"),
          ("title", JValue.str "InsightAgent"),
          ("blocks", JValue.arr [JValue.obj
            [("type", JValue.str "paragraph"),
             ("inlines", JValue.arr [JValue.obj
               [("text", JValue.str "x"), ("marks", JValue.str "abc")]])]])]])])).2.count
      "blocks[0].blocks[0].inlines[0].marks 必须是数组") = 2 := by
  have ht0 : toString (0 : Nat) = "0" := by decide
  have hpl : pyLower "insight" = "insight" := by decide
  have hres : (validate_chapter sampleRegistry (JValue.obj
      [("chapterId", JValue.int 1), ("title", JValue.str "t"),
       ("anchor", JValue.str "a"), ("order", JValue.int 1),
       ("blocks", JValue.arr [JValue.obj
         [("type", JValue.str "engineQuote"), ("engine", JValue.str "insight"),
          ("title", JValue.str "InsightAgent"),
          ("blocks", JValue.arr [JValue.obj
            [("type", JValue.str "paragraph"),
             ("inlines", JValue.arr [JValue.obj
               [("text", JValue.str "x"), ("marks", JValue.str "abc")]])]])]])])).2 =
      ["blocks[0].blocks[0].inlines[0].marks 必须是数组",
       "blocks[0].blocks[0].inlines[0].marks 必须是数组"] := by
    simp [validate_chapter, asObj, asArr, asStr, pyGet, List.lookup,
      CHAPTER_REQUIRED_FIELDS, validate_block_seq, validate_block,
      ALLOWED_BLOCK_TYPES, validate_engineQuote_block,
      engineQuote_engine_title_errs, engineQuote_engine, hpl,
      eq_sub_block_errs, eq_sub_block_one, eq_run_errs, eq_run_extra_errs,
      validate_inline_run, pyTruthy, sampleRegistry, ht0]
  exact ⟨hres, by rw [hres]; decide⟩

end ReportIR
